import Mathlib

/-!
Verification of the behavior-change-coach WhatsApp backend.

Shallow embedding of the repository's pure logic:
- `DatabaseService.normalizePhone` (db service)
- `TwilioService.sendWhatsAppMessage` / `splitMessage` (twilio service)
- the weekly-report statistics (`countCheckins`, `completenessRate`, `longestStreak`)
- the goal-declaration regex and the strict check-in regex
- the Supabase row model (`users`, `messages`, `daily_logs`, `goals`) and the
  webhook handler `handleWhatsAppWebhook` (routes/webhooks.ts), with the three
  external services (Twilio send, OpenAI completions) supplied as an oracle
  environment `Env`, since their outputs are I/O.

Strings are modelled on `List Char` (`String.data`); JavaScript machine
numbers appear only as small naturals / rationals where the source's
floating-point evaluation is provably exact (noted at each use site).
-/

/-- Characters matched by the JavaScript regex class `\s` (and removed by
`String.prototype.trim`): ASCII whitespace, NBSP, the Unicode space
separators, line/paragraph separators and BOM. -/
def isJsWs (c : Char) : Bool :=
  c = ' ' || c = '\t' || c = '\n' || c = '\r' || c.toNat = 11 || c.toNat = 12 ||
  c.toNat = 0xa0 || c.toNat = 0x1680 || (0x2000 ≤ c.toNat && c.toNat ≤ 0x200a) ||
  c.toNat = 0x2028 || c.toNat = 0x2029 || c.toNat = 0x202f || c.toNat = 0x205f ||
  c.toNat = 0x3000 || c.toNat = 0xfeff

/-- JavaScript line terminators, the characters NOT matched by `.` when the
regex lacks the `s` (dotAll) flag. -/
def isLineTerm (c : Char) : Bool :=
  c = '\n' || c = '\r' || c.toNat = 0x2028 || c.toNat = 0x2029

/-- Model of `\s*`: greedy whitespace skip. -/
def skipWs (l : List Char) : List Char := l.dropWhile isJsWs

/-- Model of `String.prototype.trim()`: strip whitespace from both ends. -/
def trimWs (l : List Char) : List Char :=
  ((l.dropWhile isJsWs).reverse.dropWhile isJsWs).reverse

/-- Model of `String.prototype.trim()` at `String` type. -/
def trimStr (s : String) : String := String.mk (trimWs s.data)

/-- Model of `.replace(/\s+/g, '')`: delete every `\s` character. -/
def removeWs (l : List Char) : List Char := l.filter (fun c => !(isJsWs c))

/-- If `pat` is a literal prefix of `s`, return the remainder, else `none`. -/
def stripLit : List Char → List Char → Option (List Char)
  | [], s => some s
  | _ :: _, [] => none
  | p :: ps, c :: cs => if c = p then stripLit ps cs else none

/-- Model of JavaScript `String.prototype.replace(pat, '')` with a *string*
(not regex) pattern: remove the first occurrence of `pat`, scanning left to
right; if there is none, return the input unchanged. -/
def removeFirstOcc (pat : List Char) : List Char → List Char
  | [] => []
  | c :: cs =>
    match stripLit pat (c :: cs) with
    | some rest => rest
    | none => c :: removeFirstOcc pat cs

/-- Whether `pat` occurs as a contiguous substring. -/
def hasSubstr (pat : List Char) : List Char → Bool
  | [] => (stripLit pat ([] : List Char)).isSome
  | c :: cs => (stripLit pat (c :: cs)).isSome || hasSubstr pat cs

/-- The literal `'whatsapp:'` stripped by the phone normalizer. -/
def waPat : List Char := "whatsapp:".data

/-- The `if (!clean.startsWith('+')) clean = `+${clean}`` step:
`startsWith('+')` is the head-character test. -/
def plusify (clean : List Char) : List Char :=
  if clean.head? = some '+' then clean else '+' :: clean

/-- Embeds `DatabaseService.normalizePhone` (db service, lines 72-76):
`input.replace('whatsapp:', '').replace(/\s+/g, '').trim()`, then prepend
`'+'` unless the result already `startsWith('+')`.  After all `\s` characters
are removed, `.trim()` is the identity but is kept for fidelity. -/
def normalizePhoneL (input : List Char) : List Char :=
  plusify (trimWs (removeWs (removeFirstOcc waPat input)))

/-- `DatabaseService.normalizePhone` at `String` type. -/
def normalizePhone (input : String) : String := String.mk (normalizePhoneL input.data)

/-! ### TwilioService.sendWhatsAppMessage / splitMessage -/

/-- The WhatsApp per-message size limit used by `TwilioService`
(`MAX_MESSAGE_LENGTH` in `sendWhatsAppMessage`). -/
def MAX_MESSAGE_LENGTH : Nat := 1600

/-- Helper for `lastIndexOfWithin`: index of the last occurrence of `ch`,
offsetting positions by `i`, with `acc` the best index found so far. -/
def lastIdxGo (ch : Char) : List Char → Nat → Option Nat → Option Nat
  | [], _, acc => acc
  | c :: cs, i, acc => lastIdxGo ch cs (i + 1) (if c = ch then some i else acc)

/-- Model of JavaScript `str.lastIndexOf(ch, pos)`: the largest index `≤ pos`
holding `ch`, or `none` (JS returns `-1`). -/
def lastIndexOfWithin (ch : Char) (l : List Char) (pos : Nat) : Option Nat :=
  lastIdxGo ch (l.take (pos + 1)) 0 none

/-- The split-point selection of `TwilioService.splitMessage`:
`lastIndexOf(' ', maxLength)`, used when `> maxLength * 0.8`, else split at
`maxLength`.  The float comparison `j > maxLength * 0.8` is modelled as
`j * 5 > maxLength * 4`; at the only call site `maxLength = 1600`, where
IEEE-754 gives `1600 * 0.8 = 1280` exactly, the two agree. -/
def chooseSplitIndex (remaining : List Char) (maxLength : Nat) : Nat :=
  match lastIndexOfWithin ' ' remaining maxLength with
  | some j => if j * 5 > maxLength * 4 then j else maxLength
  | none => maxLength

/-- The `while (remainingMessage.length > 0)` loop of
`TwilioService.splitMessage`, with explicit fuel; `none` is the out-of-fuel
marker.  `splitGoFuel_isSome` below proves fuel `remaining.length` always
suffices (each iteration drops at least one character), which is the
termination argument for the source loop. -/
def splitGoFuel (maxLength : Nat) : Nat → List Char → Option (List (List Char))
  | 0, remaining => if remaining.length = 0 then some [] else none
  | fuel + 1, remaining =>
    if remaining.length = 0 then some []
    else if remaining.length ≤ maxLength then some [remaining]
    else
      let splitIndex := chooseSplitIndex remaining maxLength
      match splitGoFuel maxLength fuel (trimWs (remaining.drop splitIndex)) with
      | some rest => some (trimWs (remaining.take splitIndex) :: rest)
      | none => none

/-- `TwilioService.splitMessage(message, maxLength)`. -/
def splitMessage (message : String) (maxLength : Nat) : List String :=
  ((splitGoFuel maxLength message.data.length message.data).getD []).map String.mk

/-- The list of message bodies `TwilioService.sendWhatsAppMessage` hands to
`client.messages.create`, in order: the message itself when within the limit,
otherwise each chunk of `splitMessage` prefixed with its `[i/N] ` part
marker. -/
def sentBodies (message : String) : List String :=
  if message.length ≤ MAX_MESSAGE_LENGTH then [message]
  else
    let parts := splitMessage message MAX_MESSAGE_LENGTH
    ((List.range parts.length).zip parts).map
      (fun p => "[" ++ Nat.repr (p.1 + 1) ++ "/" ++ Nat.repr parts.length ++ "] " ++ p.2)

/-- The 3200-character all-`'a'` message used to exercise splitting. -/
def msg3200 : String := String.mk (List.replicate 3200 'a')

/-! ### The structured check-in record (services/openai.ts, `DailyCheckin`) -/

/-- Embeds the `DailyCheckin` TypeScript type: every field optional.  The
field defaults model absent JSON keys. -/
structure DailyCheckin where
  previous_day_activities : Option String := none
  previous_day_routine : Option String := none
  previous_day_highlights : Option String := none
  previous_day_challenges : Option String := none
  current_mood : Option String := none
  current_energy_level : Option String := none
  current_motivation : Option String := none
  sleep_hours : Option ℚ := none
  sleep_quality : Option String := none
  today_plans : Option String := none
  today_priorities : Option (List String) := none
  today_goals : Option (List String) := none
  notes : Option String := none
  reflections : Option String := none
  concerns : Option String := none
  deriving DecidableEq

/-! ### Database rows (services/db.ts record types)

Timestamps (`created_at`, `updated_at`, `timestamp`) are not modelled: no
claim mentions them.  Calendar dates (`yyyy-mm-dd` strings, compared
lexicographically in the source) are modelled as day numbers `Nat`, which
preserves their order; `subDays(d, k)` becomes `d - k`. -/

/-- Row of the `users` table (`UserRecord`). -/
structure UserRow where
  id : Nat
  phone : String
  name : Option String
  timezone : String
  deriving DecidableEq

/-- Message direction. -/
inductive Direction where
  | inbound
  | outbound
  deriving DecidableEq

/-- Row of the `messages` table (`MessageRecord`). -/
structure MessageRow where
  user_id : Nat
  direction : Direction
  body : String
  deriving DecidableEq

/-- Row of the `daily_logs` table (`DailyLogRecord`). -/
structure DailyLogRow where
  id : Nat
  user_id : Nat
  date : Nat
  checkin_json : Option DailyCheckin
  deriving DecidableEq

/-- Kind of a goal milestone. -/
inductive BreakdownKind where
  | weekly
  | monthly
  deriving DecidableEq

/-- Row of the `goals` table (`GoalRecord`). -/
structure GoalRow where
  id : Nat
  user_id : Nat
  main_goal : String
  reason : Option String
  timeline : Option String
  is_active : Bool
  deriving DecidableEq

/-- Milestone as produced by the LLM (`GoalBreakdownInput`). -/
structure BreakdownInput where
  kind : BreakdownKind
  start_date : Nat
  end_date : Nat
  description : String
  deriving DecidableEq

/-- Row of the `goal_breakdowns` table (`GoalBreakdownRecord`). -/
structure BreakdownRow where
  goal_id : Nat
  kind : BreakdownKind
  start_date : Nat
  end_date : Nat
  description : String
  deriving DecidableEq

/-! ### Weekly-report statistics (services/weeklyReport.ts) -/

/-- Embeds `countCheckins` (weeklyReport.ts lines 40-46): count the logs whose
`checkin_json` is truthy (non-null). -/
def countCheckins (logs : List DailyLogRow) : Nat :=
  logs.foldl (fun count log => if log.checkin_json.isSome then count + 1 else count) 0

/-- The `logsThisWeek` filter (weeklyReport.ts lines 32-34): logs with
`thisWeekStart ≤ date ≤ today`, where `thisWeekStart = subDays(today, 6)`. -/
def logsThisWeek (dailyLogs : List DailyLogRow) (today : Nat) : List DailyLogRow :=
  dailyLogs.filter (fun log => decide ((today - 6) ≤ log.date) && decide (log.date ≤ today))

/-- Embeds `completenessRate = Math.round((checkinsThisWeek / 7) * 100)`
(weeklyReport.ts line 52).  `Mathlib.round` on `ℚ` is `⌊x + 1/2⌋`, exactly
JavaScript `Math.round` for non-negative values; for the attainable counts
`0..7` the double-precision evaluation of `(c / 7) * 100` is within `2^-45`
of the exact rational and never lands on a rounding tie (`200c + 7` is odd),
so the rational model agrees with the float. -/
def completenessRate (checkinsThisWeek : Nat) : ℤ :=
  round ((checkinsThisWeek : ℚ) / 7 * 100)

/-- Embeds `longestStreak` (weeklyReport.ts lines 55-68): walk the 7 dates
`weekEnd - 6 .. weekEnd` in order, keeping `(streak, maxStreak)`; a date
whose log exists with truthy `checkin_json` extends the streak, anything else
resets it. -/
def longestStreak (logs : List DailyLogRow) (weekEnd : Nat) : Nat :=
  ((List.range 7).foldl
    (fun p i =>
      let date := weekEnd - (6 - i)
      match logs.find? (fun l => l.date == date) with
      | some log =>
        if log.checkin_json.isSome then
          let s := p.1 + 1
          (s, if s > p.2 then s else p.2)
        else (0, p.2)
      | none => (0, p.2))
    ((0, 0) : Nat × Nat)).2

/-- The per-day presence flags of the week ending at `weekEnd`: day `i` is
`true` when a log for date `weekEnd - (6 - i)` exists with a non-null
check-in payload. -/
def presentFlags (logs : List DailyLogRow) (weekEnd : Nat) : List Bool :=
  (List.range 7).map (fun i =>
    match logs.find? (fun l => l.date == (weekEnd - (6 - i))) with
    | some log => log.checkin_json.isSome
    | none => false)

/-- Length of the leading run of `true`s. -/
def headRun : List Bool → Nat
  | true :: bs => headRun bs + 1
  | _ => 0

/-- Specification of "longest run of consecutive `true`s": the maximum of
`headRun` over all suffixes. -/
def maxRun : List Bool → Nat
  | [] => 0
  | b :: bs => max (headRun (b :: bs)) (maxRun bs)

/-- `maxRun` of the tail (0 on the empty list). -/
def maxRunTail : List Bool → Nat
  | [] => 0
  | _ :: bs => maxRun bs

/-- The `(streak, maxStreak)` accumulator loop of `longestStreak`, seen as a
function of the per-day presence flags. -/
def streakFoldB (flags : List Bool) : Nat :=
  (flags.foldl
    (fun p b => if b then (p.1 + 1, if p.1 + 1 > p.2 then p.1 + 1 else p.2) else (0, p.2))
    ((0, 0) : Nat × Nat)).2

/-- A non-empty check-in payload used in concrete week scenarios. -/
def someCheckin : DailyCheckin := { notes := some "did the morning routine" }

/-- Week with check-ins on Mon, Tue, Wed, Fri, Sat, Sun and none on Thu
(dates `0,1,2,4,5,6` of the window ending at date `6`). -/
def c5logs : List DailyLogRow :=
  [⟨1, 1, 0, some someCheckin⟩, ⟨2, 1, 1, some someCheckin⟩, ⟨3, 1, 2, some someCheckin⟩,
   ⟨4, 1, 4, some someCheckin⟩, ⟨5, 1, 5, some someCheckin⟩, ⟨6, 1, 6, some someCheckin⟩]

/-! ### The goal-declaration regex (routes/webhooks.ts line 51)

`/Goal\s*:\s*(.+?)(?:\s*\||\n|$)\s*Reason\s*:\s*(.+?)(?:\s*\||\n|$)\s*Timeline\s*:\s*(.+)/is`

The matcher below transcribes this pattern with JavaScript backtracking
semantics, specialized to its concrete shape:
- literals are compared case-insensitively (`i` flag);
- `.` matches every character (`s` flag);
- `(.+?)` is lazy: the shortest non-empty capture whose continuation
  matches wins;
- `\s*\|` is deterministic (whitespace never equals `'|'`, so shrinking the
  greedy `\s*` cannot help), as is `\s*` before a literal letter or `:`;
- in `\s*(.+)` the greedy `\s*` backtracks one character when it would leave
  `(.+)` nothing to match (`dotallRest`);
- the overall match starts at the leftmost position at which the whole
  pattern succeeds (`goalSearch`). -/

/-- Case-insensitive literal match: consume `pat` (given lowercase) from the
input, returning the remainder. -/
def expectCI : List Char → List Char → Option (List Char)
  | [], s => some s
  | _ :: _, [] => none
  | p :: ps, c :: cs => if c.toLower = p then expectCI ps cs else none

/-- The second and third alternatives of the group delimiter: a literal
newline, or the end of input (`$` without the `m` flag). -/
def goalDelimSnd (s : List Char) : Option (List Char) :=
  match s with
  | c :: rest => if c = '\n' then some rest else none
  | [] => some []

/-- The group delimiter `(?:\s*\||\n|$)`: alternatives tried in order.  The
first, `\s*\|`, is deterministic: it succeeds exactly when the first
non-whitespace character ahead is `'|'` (whitespace never equals `'|'`, so
shrinking the greedy `\s*` cannot create a match). -/
def goalDelim (s : List Char) : Option (List Char) :=
  match skipWs s with
  | c :: rest => if c = '|' then some rest else goalDelimSnd s
  | [] => goalDelimSnd s

/-- Trailing `\s*(.+)` under the `s` flag: greedy skip, then everything that
remains; when the remainder is pure whitespace the greedy `\s*` gives back
its last character so that `(.+)` can match it. -/
def dotallRest (s : List Char) : Option (List Char) :=
  match skipWs s with
  | [] =>
    match s.getLast? with
    | some c => some [c]
    | none => none
  | rest => some rest

/-- Continuation after the second capture: `(?:\s*\||\n|$)\s*Timeline\s*:\s*(.+)`. -/
def goalAfterG2 (g1 g2 : List Char) (s : List Char) :
    Option (List Char × List Char × List Char) :=
  match goalDelim s with
  | none => none
  | some s1 =>
    match expectCI "timeline".data (skipWs s1) with
    | none => none
    | some s2 =>
      match skipWs s2 with
      | ':' :: s3 =>
        match dotallRest s3 with
        | some g3 => some (g1, g2, g3)
        | none => none
      | _ => none

/-- The lazy second capture `(.+?)`: grow the capture one character at a
time, trying the continuation after each character. -/
def goalCapture2 (g1 : List Char) (acc : List Char) :
    List Char → Option (List Char × List Char × List Char)
  | [] => none
  | c :: cs =>
    match goalAfterG2 g1 (acc ++ [c]) cs with
    | some r => some r
    | none => goalCapture2 g1 (acc ++ [c]) cs

/-- Continuation after the first capture:
`(?:\s*\||\n|$)\s*Reason\s*:\s*(.+?)...`. -/
def goalAfterG1 (g1 : List Char) (s : List Char) :
    Option (List Char × List Char × List Char) :=
  match goalDelim s with
  | none => none
  | some s1 =>
    match expectCI "reason".data (skipWs s1) with
    | none => none
    | some s2 =>
      match skipWs s2 with
      | ':' :: s3 => goalCapture2 g1 [] (skipWs s3)
      | _ => none

/-- The lazy first capture `(.+?)`. -/
def goalCapture1 (acc : List Char) :
    List Char → Option (List Char × List Char × List Char)
  | [] => none
  | c :: cs =>
    match goalAfterG1 (acc ++ [c]) cs with
    | some r => some r
    | none => goalCapture1 (acc ++ [c]) cs

/-- Attempt the whole goal pattern at one position. -/
def goalMatchAt (s : List Char) : Option (List Char × List Char × List Char) :=
  match expectCI "goal".data s with
  | none => none
  | some s1 =>
    match skipWs s1 with
    | ':' :: s2 => goalCapture1 [] (skipWs s2)
    | _ => none

/-- `body.match(goalPattern)`: scan start positions left to right (a match
can never begin at the empty tail, as the pattern needs characters). -/
def goalSearch : List Char → Option (List Char × List Char × List Char)
  | [] => none
  | c :: cs =>
    match goalMatchAt (c :: cs) with
    | some r => some r
    | none => goalSearch cs

/-- The handler's goal extraction (webhooks.ts lines 52, 58-60): regex match
followed by `.trim()` of each captured group. -/
def goalDeclFields (body : String) : Option (String × String × String) :=
  (goalSearch body.data).map
    (fun g => (String.mk (trimWs g.1), String.mk (trimWs g.2.1), String.mk (trimWs g.2.2)))

/-! ### The strict check-in regex (services/openai.ts line 54)

`/Sleep\s+(\d+(?:\.\d+)?)h?\s*\|\s*Mood\s+(\d+)\s*\|\s*Energy\s+(\d+)\s*\|\s*Notes:\s*(.+)/i`

All quantifier choices in this pattern are deterministic (digits, whitespace,
`'|'`, `'.'` and `'h'` are pairwise disjoint at every boundary; shrinking a
greedy run can never create a match that the maximal run misses), except the
final `\s*(.+)` without the `s` flag, handled by `lineRest`. -/

/-- ASCII digit, the JavaScript `\d`. -/
def isDigitChar (c : Char) : Bool := '0' ≤ c && c ≤ '9'

/-- The `\s*\|\s*` separator. -/
def pipeGap (s : List Char) : Option (List Char) :=
  match skipWs s with
  | '|' :: rest => some (skipWs rest)
  | _ => none

/-- Matches `lit\s+(\d+)`, returning the digit capture and the remainder. -/
def numField (lit : List Char) (s : List Char) : Option (List Char × List Char) :=
  match expectCI lit s with
  | none => none
  | some s1 =>
    match s1 with
    | [] => none
    | c :: cs =>
      if isJsWs c then
        let s2 := skipWs cs
        let ds := s2.takeWhile isDigitChar
        if ds.isEmpty then none else some (ds, s2.dropWhile isDigitChar)
      else none

/-- The optional `h?` after the sleep amount (case-insensitive). -/
def sleepOptH (g1 : List Char) (s : List Char) : Option (List Char × List Char) :=
  match s with
  | c :: cs => if c.toLower = 'h' then some (g1, cs) else some (g1, c :: cs)
  | [] => some (g1, [])

/-- Matches `Sleep\s+(\d+(?:\.\d+)?)h?`, returning the number capture and the
remainder.  When `\.\d+` cannot match, the optional group is skipped and the
leftover `'.'` makes the following separator fail, as in the source. -/
def sleepField (s : List Char) : Option (List Char × List Char) :=
  match expectCI "sleep".data s with
  | none => none
  | some s1 =>
    match s1 with
    | [] => none
    | c :: cs =>
      if isJsWs c then
        let s2 := skipWs cs
        let ds := s2.takeWhile isDigitChar
        if ds.isEmpty then none
        else
          let s3 := s2.dropWhile isDigitChar
          match s3 with
          | '.' :: t =>
            let fds := t.takeWhile isDigitChar
            if fds.isEmpty then sleepOptH ds s3
            else sleepOptH (ds ++ '.' :: fds) (t.dropWhile isDigitChar)
          | _ => sleepOptH ds s3
      else none

/-- Fallback for `\s*(.+)` without the `s` flag when the remainder is all
whitespace: the greedy `\s*` gives back characters until `(.+)` can start on
a non-line-terminator; the latest such position wins. -/
def notesFallback : List Char → Option (List Char)
  | [] => none
  | c :: cs =>
    match notesFallback cs with
    | some g => some g
    | none =>
      if isLineTerm c then none
      else some ((c :: cs).takeWhile (fun x => !(isLineTerm x)))

/-- Trailing `\s*(.+)` without the `s` flag: skip whitespace greedily, then
capture the maximal run of non-line-terminator characters (at least one). -/
def lineRest (s : List Char) : Option (List Char) :=
  match s.dropWhile isJsWs with
  | c :: cs => some ((c :: cs).takeWhile (fun x => !(isLineTerm x)))
  | [] => notesFallback s

/-- Attempt the whole strict check-in pattern at one position. -/
def strictMatchAt (s : List Char) :
    Option (List Char × List Char × List Char × List Char) :=
  match sleepField s with
  | none => none
  | some (g1, s4) =>
    match pipeGap s4 with
    | none => none
    | some s5 =>
      match numField "mood".data s5 with
      | none => none
      | some (g2, s6) =>
        match pipeGap s6 with
        | none => none
        | some s7 =>
          match numField "energy".data s7 with
          | none => none
          | some (g3, s8) =>
            match pipeGap s8 with
            | none => none
            | some s9 =>
              match expectCI "notes:".data s9 with
              | none => none
              | some s10 =>
                match lineRest s10 with
                | some g4 => some (g1, g2, g3, g4)
                | none => none

/-- `message.match(pattern)` for the strict check-in regex: leftmost start. -/
def strictSearch : List Char → Option (List Char × List Char × List Char × List Char)
  | [] => none
  | c :: cs =>
    match strictMatchAt (c :: cs) with
    | some r => some r
    | none => strictSearch cs

/-- Numeric value of a digit string (`parseInt` on a `\d+` capture; exact for
the magnitudes a check-in can carry). -/
def natOfDigits (l : List Char) : Nat :=
  l.foldl (fun n c => n * 10 + (c.toNat - '0'.toNat)) 0

/-- `parseFloat` on a `\d+(\.\d+)?` capture, as an exact rational (the
float result is exact for the integer-valued captures the claims exercise). -/
def decimalToRat (l : List Char) : ℚ :=
  let ds := l.takeWhile isDigitChar
  match l.dropWhile isDigitChar with
  | '.' :: frac => (natOfDigits ds : ℚ) + (natOfDigits frac : ℚ) / (10 ^ frac.length)
  | _ => (natOfDigits ds : ℚ)

/-- Embeds `OpenAIService.parseMorningCheckin` (openai.ts lines 51-73): match
the strict pattern; on success build the record
`{sleep_hours, current_mood, current_energy_level, notes}` with
`parseFloat` / `parseInt(...).toString()` / trimmed notes; otherwise return
`null`.  This function performs no LLM call: it is pure in the source and
pure here. -/
def parseMorningCheckin (message : String) : Option DailyCheckin :=
  match strictSearch message.data with
  | some (g1, g2, g3, g4) =>
    some { sleep_hours := some (decimalToRat g1),
           current_mood := some (Nat.repr (natOfDigits g2)),
           current_energy_level := some (Nat.repr (natOfDigits g3)),
           notes := some (String.mk (trimWs g4)) }
  | none => none

/-! ### Database state and operations (services/db.ts)

The Supabase tables are modelled as in-memory lists plus fresh-id counters;
every operation below transcribes the corresponding `DatabaseService`
method's query plan.  Reads that the source feeds into LLM prompts only
(recent check-ins, active goals, breakdowns) do not alter state and do not
appear in the claims, so they are not replayed inside the handler. -/

/-- The persistent state: the four tables of `database_schema.sql`. -/
structure Db where
  users : List UserRow
  messages : List MessageRow
  dailyLogs : List DailyLogRow
  goals : List GoalRow
  goalBreakdowns : List BreakdownRow
  nextUserId : Nat
  nextDailyLogId : Nat
  nextGoalId : Nat
  deriving DecidableEq

/-- `DatabaseService.getUserByPhone`: normalize, then select by phone. -/
def getUserByPhone (db : Db) (phone : String) : Option UserRow :=
  db.users.find? (fun u => u.phone == normalizePhone phone)

/-- `DatabaseService.createUser`: normalize; return the existing row if one
matches, else insert `{phone, name, timezone := 'UTC'}`. -/
def createUser (db : Db) (phone : String) (name : Option String) : UserRow × Db :=
  let normalized := normalizePhone phone
  match db.users.find? (fun u => u.phone == normalized) with
  | some u => (u, db)
  | none =>
    let u : UserRow := ⟨db.nextUserId, normalized, name, "UTC"⟩
    (u, { db with users := db.users ++ [u], nextUserId := db.nextUserId + 1 })

/-- `DatabaseService.logMessage`: unconditional insert into `messages`. -/
def logMessage (db : Db) (userId : Nat) (direction : Direction) (body : String) : Db :=
  { db with messages := db.messages ++ [⟨userId, direction, body⟩] }

/-- Embeds `DatabaseService.createDailyLog` (db service, lines 125-162):
select the `(user_id, date)` row (`maybeSingle`); if present, update that
row by `id` with the new payload, else insert a fresh row. -/
def createDailyLog (db : Db) (userId date : Nat) (payload : Option DailyCheckin) : Db :=
  match db.dailyLogs.find? (fun r => r.user_id == userId && r.date == date) with
  | some existing =>
    { db with dailyLogs := db.dailyLogs.map (fun r =>
        if r.id == existing.id then
          { r with user_id := userId, date := date, checkin_json := payload }
        else r) }
  | none =>
    { db with
      dailyLogs := db.dailyLogs ++ [⟨db.nextDailyLogId, userId, date, payload⟩],
      nextDailyLogId := db.nextDailyLogId + 1 }

/-- `DatabaseService.setMainGoal`: always insert a fresh active goal; prior
goals are not deactivated. -/
def setMainGoal (db : Db) (userId : Nat) (mainGoal : String)
    (reason timeline : Option String) : GoalRow × Db :=
  let g : GoalRow := ⟨db.nextGoalId, userId, mainGoal, reason, timeline, true⟩
  (g, { db with goals := db.goals ++ [g], nextGoalId := db.nextGoalId + 1 })

/-- `DatabaseService.addGoalBreakdowns`: bulk insert. -/
def addGoalBreakdowns (db : Db) (goalId : Nat) (items : List BreakdownInput) : Db :=
  { db with goalBreakdowns := db.goalBreakdowns ++
      items.map (fun b => ⟨goalId, b.kind, b.start_date, b.end_date, b.description⟩) }

/-! ### The webhook handler (routes/webhooks.ts, `handleWhatsAppWebhook`) -/

/-- The raw `req.body` fields Twilio posts (each possibly absent). -/
structure WebhookRequest where
  rFrom : Option String
  rBody : Option String
  rMessageSid : Option String
  rProfileName : Option String
  rWaId : Option String
  deriving DecidableEq

/-- `TwilioService.parseIncomingMessage` output (`ParsedIncomingMessage`). -/
structure ParsedIncomingMessage where
  mFrom : String
  mBody : String
  mMessageSid : String
  mProfileName : String
  mWaId : String
  deriving DecidableEq

/-- Embeds `TwilioService.parseIncomingMessage`: each field defaults to the
empty string (`requestData['X'] || ''`). -/
def parseIncomingMessage (req : WebhookRequest) : ParsedIncomingMessage :=
  { mFrom := req.rFrom.getD "", mBody := req.rBody.getD "",
    mMessageSid := req.rMessageSid.getD "", mProfileName := req.rProfileName.getD "",
    mWaId := req.rWaId.getD "" }

/-- Outcomes of the external services consumed during one webhook request.
They are oracle inputs because the source obtains them over the network:
`sendResult` is what `twilioService.sendWhatsAppMessage` returns (a message
sid, or `null` after a caught send error); the text fields are LLM outputs
(already including each generator's fixed apology fallback); `flexibleOut`
is the result of `parseMorningCheckinFlexible` beyond the strict pattern
(keyword pre-filter plus LLM extraction); `todayDate` is the current date. -/
structure Env where
  sendResult : Option String
  weeklyReportText : String
  flexibleOut : Option DailyCheckin
  dailyPlanText : String
  generalText : String
  breakdownsOut : List BreakdownInput
  todayDate : Nat

/-- The webhook's JSON replies: `400 {error}`, `200 {status: 'Weekly report
sent'}` (no message id), and `200 {status: 'success', message_sid}`. -/
inductive WebhookResponse where
  | invalid
  | weeklySent
  | success (message_sid : Option String)
  deriving DecidableEq

/-- The weekly-report command test `/^weekly report$/i.test(body.trim())`. -/
def weeklyCmd (body : String) : Bool :=
  (trimWs body.data).map Char.toLower == "weekly report".data

/-- Lines 23-31: look up the user by phone, creating one (named by the
trimmed profile name, or null) when absent. -/
def resolveUser (db : Db) (md : ParsedIncomingMessage) : UserRow × Db :=
  match getUserByPhone db md.mFrom with
  | some u => (u, db)
  | none =>
    let name := trimStr md.mProfileName
    createUser db md.mFrom (if name == "" then none else some name)

/-- Lines 141-151: the shared tail of the non-weekly branches.  The send
result decides persistence: a sid logs the outbound message, `null` logs
nothing; either way the response is success-shaped and carries the sid. -/
def finishSend (env : Env) (db : Db) (userId : Nat) (responseMessage : String) :
    WebhookResponse × Db :=
  match env.sendResult with
  | some sid => (.success (some sid), logMessage db userId .outbound responseMessage)
  | none => (.success none, db)

/-- Lines 37-44: the weekly-report branch.  The source ignores the value of
`sendWhatsAppMessage` here and logs the outbound message unconditionally. -/
def weeklyBranch (env : Env) (db : Db) (user : UserRow) : WebhookResponse × Db :=
  let report := env.weeklyReportText
  let db2 := logMessage db user.id .outbound report
  (.weeklySent, db2)

/-- Lines 56-80: the goal branch: persist the goal, persist any generated
breakdowns, build the confirmation text (database failures are not
modelled, so the catch arm is not reachable here). -/
def goalBranch (env : Env) (db : Db) (user : UserRow)
    (mainGoal reason timeline : String) : WebhookResponse × Db :=
  let gdb := setMainGoal db user.id mainGoal
    (if reason == "" then none else some reason)
    (if timeline == "" then none else some timeline)
  let db2 :=
    if 0 < env.breakdownsOut.length then addGoalBreakdowns gdb.2 gdb.1.id env.breakdownsOut
    else gdb.2
  let responseMessage :=
    "Your main goal has been set!\nGoal: " ++ mainGoal ++ "\nReason: " ++ reason ++
    "\nTimeline: " ++ timeline ++
    "\nMilestones have been generated. You can now send your daily check-ins!"
  finishSend env db2 user.id responseMessage

/-- Lines 82-138: strict check-in parse, flexible fallback, then either the
check-in branch (upsert today's daily log, reply with the generated plan) or
the general-response branch. -/
def checkinOrGeneral (env : Env) (db : Db) (user : UserRow)
    (md : ParsedIncomingMessage) : WebhookResponse × Db :=
  let checkin :=
    match parseMorningCheckin md.mBody with
    | some c => some c
    | none => env.flexibleOut
  match checkin with
  | some c =>
    let db2 := createDailyLog db user.id env.todayDate (some c)
    let responseMessage :=
      "Here\x27s your personalized daily plan based on your check-in and recent patterns:\n\n"
      ++ env.dailyPlanText
    finishSend env db2 user.id responseMessage
  | none => finishSend env db user.id env.generalText

/-- Lines 36-139: the branch chain after user resolution and inbound
logging: weekly-report command, else goal declaration, else check-in or
general response. -/
def routeMessage (env : Env) (db : Db) (user : UserRow)
    (md : ParsedIncomingMessage) : WebhookResponse × Db :=
  if weeklyCmd md.mBody then weeklyBranch env db user
  else
    match goalDeclFields md.mBody with
    | some (mainGoal, reason, timeline) => goalBranch env db user mainGoal reason timeline
    | none => checkinOrGeneral env db user md

/-- Embeds `handleWhatsAppWebhook` (webhooks.ts lines 9-156): parse the
payload; reject with `400` when sender or body is missing (before any
database access); otherwise resolve the user, log the inbound message and
route. -/
def handleWhatsAppWebhook (env : Env) (db : Db) (req : WebhookRequest) :
    WebhookResponse × Db :=
  let md := parseIncomingMessage req
  if md.mFrom == "" || md.mBody == "" then (.invalid, db)
  else
    let ud := resolveUser db md
    let db1 := logMessage ud.2 ud.1.id .inbound md.mBody
    routeMessage env db1 ud.1 md

/-- The outbound rows of the `messages` table. -/
def outboundMessages (db : Db) : List MessageRow :=
  db.messages.filter (fun m => m.direction == .outbound)

/-! ### Concrete scenario data and auxiliary predicates used by the claims -/

/-- A goal/reason/timeline field value in canonical shape: non-empty, free of
`'|'` and of line terminators, and not starting or ending in whitespace
(whitespace inside the field is allowed). -/
def plainField (l : List Char) : Bool :=
  !l.isEmpty && l.all (fun c => !(c = '|') && !(isLineTerm c)) &&
  (match l.head? with | some c => !(isJsWs c) | none => false) &&
  (match l.getLast? with | some c => !(isJsWs c) | none => false)

/-- The pipe-delimited single-line goal declaration `Goal: X | Reason: Y | Timeline: Z`. -/
def goalPipeForm (x y z : List Char) : List Char :=
  "Goal: ".data ++ x ++ " | Reason: ".data ++ y ++ " | Timeline: ".data ++ z

/-- The newline-delimited multi-line goal declaration. -/
def goalNlForm (x y z : List Char) : List Char :=
  "Goal: ".data ++ x ++ "\nReason: ".data ++ y ++ "\nTimeline: ".data ++ z

/-- An environment in which the Twilio send fails (`sendWhatsAppMessage`
catches the error and returns `null`) and the LLM calls return fixed text. -/
def env0 : Env :=
  { sendResult := none, weeklyReportText := "Your weekly report", flexibleOut := none,
    dailyPlanText := "plan", generalText := "general", breakdownsOut := [], todayDate := 40 }

/-- The empty database. -/
def db0 : Db :=
  { users := [], messages := [], dailyLogs := [], goals := [], goalBreakdowns := [],
    nextUserId := 1, nextDailyLogId := 1, nextGoalId := 1 }

/-- A webhook request carrying the `weekly report` command. -/
def reqWeekly : WebhookRequest :=
  { rFrom := some "whatsapp:+15551234567", rBody := some "weekly report",
    rMessageSid := some "SM1", rProfileName := some "Sam", rWaId := some "15551234567" }

/-- A webhook request with a sender but no body. -/
def reqNoBody : WebhookRequest :=
  { rFrom := some "whatsapp:+15551234567", rBody := none,
    rMessageSid := some "SM2", rProfileName := none, rWaId := none }

/-- A plain conversational webhook request. -/
def reqHello : WebhookRequest :=
  { rFrom := some "whatsapp:+15551234567", rBody := some "hello",
    rMessageSid := some "SM3", rProfileName := none, rWaId := none }

/-- A 7-day window with non-empty check-ins on exactly 5 of the days. -/
def c6logs : List DailyLogRow :=
  [⟨1, 1, 34, some someCheckin⟩, ⟨2, 1, 35, some someCheckin⟩, ⟨3, 1, 36, none⟩,
   ⟨4, 1, 37, some someCheckin⟩, ⟨5, 1, 38, some someCheckin⟩, ⟨6, 1, 40, some someCheckin⟩]

/-! ## Shared lemmas about whitespace trimming and scanning -/

theorem dropWhile_eq_self_of_head (p : Char → Bool) (l : List Char)
    (h : ∀ c, l.head? = some c → p c = false) : l.dropWhile p = l := by
  cases l with
  | nil => rfl
  | cons c cs => simp [List.dropWhile_cons, h c rfl]

theorem trimWs_eq_self (l : List Char)
    (h1 : ∀ c, l.head? = some c → isJsWs c = false)
    (h2 : ∀ c, l.getLast? = some c → isJsWs c = false) : trimWs l = l := by
  unfold trimWs
  rw [dropWhile_eq_self_of_head _ _ h1]
  rw [dropWhile_eq_self_of_head _ _ (by intro c hc; apply h2; rwa [List.head?_reverse] at hc)]
  exact List.reverse_reverse l

theorem trimWs_eq_self_of_all (l : List Char)
    (h : ∀ c ∈ l, isJsWs c = false) : trimWs l = l := by
  apply trimWs_eq_self <;> intro c hc
  · cases l with
    | nil => simp at hc
    | cons d ds =>
      apply h
      simp only [List.head?_cons, Option.some.injEq] at hc
      simp [hc]
  · exact h c (List.mem_of_mem_getLast? hc)

theorem trimWs_sublist (l : List Char) : List.Sublist (trimWs l) l := by
  unfold trimWs
  have h1 : List.Sublist ((l.dropWhile isJsWs).reverse.dropWhile isJsWs).reverse
      (l.dropWhile isJsWs).reverse.reverse := (List.dropWhile_sublist _).reverse
  rw [List.reverse_reverse] at h1
  exact h1.trans (List.dropWhile_sublist _)

theorem trimWs_length_le (l : List Char) : (trimWs l).length ≤ l.length :=
  (trimWs_sublist l).length_le

theorem length_mk_list (l : List Char) : (String.mk l).length = l.length := rfl

/-! ## C3: phone normalization -/

theorem removeFirstOcc_of_no_occ (pat : List Char) :
    ∀ l : List Char, hasSubstr pat l = false → removeFirstOcc pat l = l := by
  intro l
  induction l with
  | nil => intro h; rfl
  | cons c cs ih =>
    intro h
    rw [hasSubstr] at h
    simp only [Bool.or_eq_false_iff] at h
    obtain ⟨h1, h2⟩ := h
    rw [removeFirstOcc]
    cases hs : stripLit pat (c :: cs) with
    | some r => rw [hs] at h1; simp at h1
    | none => show c :: removeFirstOcc pat cs = c :: cs; rw [ih h2]

theorem plusify_head (l : List Char) : (plusify l).head? = some '+' := by
  unfold plusify
  by_cases h : l.head? = some '+'
  · rw [if_pos h]; exact h
  · rw [if_neg h]; rfl

theorem plusify_of_head (l : List Char) (h : l.head? = some '+') : plusify l = l := by
  unfold plusify
  rw [if_pos h]

theorem normalizePhoneL_no_ws (x : List Char) :
    ∀ c ∈ normalizePhoneL x, isJsWs c = false := by
  intro c hc
  unfold normalizePhoneL plusify at hc
  by_cases h : (trimWs (removeWs (removeFirstOcc waPat x))).head? = some '+'
  · rw [if_pos h] at hc
    have hmem := (trimWs_sublist _).subset hc
    unfold removeWs at hmem
    have hp := List.of_mem_filter hmem
    simpa using hp
  · rw [if_neg h] at hc
    rcases List.mem_cons.mp hc with hc1 | hc2
    · subst hc1; decide
    · have hmem := (trimWs_sublist _).subset hc2
      unfold removeWs at hmem
      have hp := List.of_mem_filter hmem
      simpa using hp

theorem removeWs_eq_self (l : List Char) (h : ∀ c ∈ l, isJsWs c = false) :
    removeWs l = l := by
  unfold removeWs
  exact List.filter_eq_self.mpr (fun c hc => by simp [h c hc])

/-- C3, counterexample: normalization is NOT idempotent.  On
`"whats app:123"` the literal replace finds no `'whatsapp:'` (the space
breaks it), whitespace removal then *creates* one, so one pass returns
`"+whatsapp:123"` while a second pass strips the now-contiguous prefix and
returns `"+123"`. -/
theorem c3_counterexample :
    normalizePhone (normalizePhone "whats app:123") ≠ normalizePhone "whats app:123" := by
  decide

/-- C3 (amended): the phone normalizer is total and its output always starts
with `'+'`; it is idempotent on every input whose normalized form does not
itself contain the substring `'whatsapp:'` (on inputs whose normal form
still contains `'whatsapp:'`, a second pass removes that occurrence, so
idempotence fails there and only there). -/
theorem c3_amended (x : String) :
    (normalizePhone x).data.head? = some '+' ∧
    (hasSubstr waPat (normalizePhone x).data = false →
      normalizePhone (normalizePhone x) = normalizePhone x) := by
  constructor
  · show (normalizePhoneL x.data).head? = some '+'
    exact plusify_head _
  · intro h
    have h' : hasSubstr waPat (normalizePhoneL x.data) = false := h
    show String.mk (normalizePhoneL (normalizePhoneL x.data)) = String.mk (normalizePhoneL x.data)
    congr 1
    have hws := normalizePhoneL_no_ws x.data
    show plusify (trimWs (removeWs (removeFirstOcc waPat (normalizePhoneL x.data)))) =
      normalizePhoneL x.data
    rw [removeFirstOcc_of_no_occ _ _ h', removeWs_eq_self _ hws, trimWs_eq_self_of_all _ hws]
    exact plusify_of_head _ (plusify_head _)

/-- C3, witness: the amended idempotence theorem applied at `"+123"`. -/
theorem c3_witness :
    (normalizePhone "+123").data.head? = some '+' ∧
    normalizePhone (normalizePhone "+123") = normalizePhone "+123" :=
  ⟨(c3_amended "+123").1, (c3_amended "+123").2 (by decide)⟩

/-! ## C2 / C10: message splitting -/

theorem lastIdxGo_of_ne (ch c : Char) (h : ¬(c = ch)) :
    ∀ (n i : Nat) (acc : Option Nat), lastIdxGo ch (List.replicate n c) i acc = acc := by
  intro n
  induction n with
  | zero => intro i acc; rfl
  | succ k ih => intro i acc; simp [List.replicate_succ, lastIdxGo, h, ih]

theorem trimWs_replicate_a (n : Nat) : trimWs (List.replicate n 'a') = List.replicate n 'a' :=
  trimWs_eq_self_of_all _ (by intro c hc; rw [List.eq_of_mem_replicate hc]; decide)

theorem chooseSplitIndex_rep3200 : chooseSplitIndex (List.replicate 3200 'a') 1600 = 1600 := by
  unfold chooseSplitIndex lastIndexOfWithin
  rw [List.take_replicate, lastIdxGo_of_ne ' ' 'a' (by decide)]

theorem splitGoFuel_small (maxLength fuel : Nat) (remaining : List Char)
    (hf : 1 ≤ fuel) (hle : remaining.length ≤ maxLength) :
    splitGoFuel maxLength fuel remaining =
      if remaining.length = 0 then some [] else some [remaining] := by
  cases fuel with
  | zero => exact absurd hf (by omega)
  | succ f =>
    by_cases h0 : remaining.length = 0 <;> simp [splitGoFuel, h0, hle]

theorem splitGoFuel_stepL (maxLength fuel : Nat) (remaining : List Char)
    (hgt : maxLength < remaining.length) :
    splitGoFuel maxLength (fuel + 1) remaining =
      match splitGoFuel maxLength fuel
          (trimWs (remaining.drop (chooseSplitIndex remaining maxLength))) with
      | some rest => some (trimWs (remaining.take (chooseSplitIndex remaining maxLength)) :: rest)
      | none => none := by
  have h0 : ¬(remaining.length = 0) := by omega
  have h1 : ¬(remaining.length ≤ maxLength) := by omega
  simp [splitGoFuel, h0, h1]

theorem splitGo_3200 : splitGoFuel 1600 3200 (List.replicate 3200 'a') =
    some [List.replicate 1600 'a', List.replicate 1600 'a'] := by
  show splitGoFuel 1600 (3199 + 1) (List.replicate 3200 'a') = _
  rw [splitGoFuel_stepL 1600 3199 _ (by rw [List.length_replicate]; norm_num)]
  rw [chooseSplitIndex_rep3200, List.drop_replicate, List.take_replicate]
  norm_num
  rw [trimWs_replicate_a,
    splitGoFuel_small 1600 3199 _ (by norm_num) (by rw [List.length_replicate])]
  rw [List.length_replicate]
  norm_num

theorem c2_parts : splitMessage msg3200 MAX_MESSAGE_LENGTH =
    [String.mk (List.replicate 1600 'a'), String.mk (List.replicate 1600 'a')] := by
  unfold splitMessage MAX_MESSAGE_LENGTH
  show ((splitGoFuel 1600 (List.replicate 3200 'a').length
      (List.replicate 3200 'a')).getD []).map String.mk = _
  rw [List.length_replicate, splitGo_3200]
  rfl

theorem msg3200_length : msg3200.length = 3200 := by
  show (List.replicate 3200 'a').length = 3200
  rw [List.length_replicate]

/-- C2 (code evaluation at the failing input): a 3200-character message with
no spaces is split into exactly 2 chunks of 1600 characters, and the two
bodies actually sent are `'[1/2] ' ++ chunk` and `'[2/2] ' ++ chunk` of
length 1606 each, exceeding the 1600-character limit the claim (and the
code's own comment) state; a 10-character message is sent as a single
unsplit message. -/
theorem c2_code_eval :
    (sentBodies msg3200).map String.length = [1606, 1606] ∧
    sentBodies (String.mk (List.replicate 10 'a')) = [String.mk (List.replicate 10 'a')] := by
  constructor
  · unfold sentBodies
    rw [if_neg (by rw [msg3200_length]; decide)]
    rw [c2_parts]
    show List.map String.length
        (List.map (fun p => "[" ++ Nat.repr (p.1 + 1) ++ "/" ++
            Nat.repr ([String.mk (List.replicate 1600 'a'),
              String.mk (List.replicate 1600 'a')].length) ++ "] " ++ p.2)
          ((List.range [String.mk (List.replicate 1600 'a'),
              String.mk (List.replicate 1600 'a')].length).zip
            [String.mk (List.replicate 1600 'a'),
              String.mk (List.replicate 1600 'a')])) = [1606, 1606]
    rw [show [String.mk (List.replicate 1600 'a'),
        String.mk (List.replicate 1600 'a')].length = 2 from rfl]
    rw [show ((List.range 2).zip [String.mk (List.replicate 1600 'a'),
          String.mk (List.replicate 1600 'a')]) =
        [(0, String.mk (List.replicate 1600 'a')),
          (1, String.mk (List.replicate 1600 'a'))] from rfl]
    simp only [List.map_cons, List.map_nil, String.length_append]
    have hs : (String.mk (List.replicate 1600 'a')).length = 1600 := by
      rw [length_mk_list, List.length_replicate]
    rw [hs]
    decide
  · decide

theorem chooseSplitIndex_pos (remaining : List Char) (maxLength : Nat)
    (hm : 0 < maxLength) : 1 ≤ chooseSplitIndex remaining maxLength := by
  unfold chooseSplitIndex
  cases lastIndexOfWithin ' ' remaining maxLength with
  | none => show 1 ≤ maxLength; omega
  | some j =>
    show 1 ≤ if j * 5 > maxLength * 4 then j else maxLength
    by_cases h : j * 5 > maxLength * 4
    · rw [if_pos h]; omega
    · rw [if_neg h]; omega

theorem lastIdxGo_cases (ch : Char) :
    ∀ (l : List Char) (i : Nat) (acc : Option Nat) (j : Nat),
      lastIdxGo ch l i acc = some j → acc = some j ∨ (i ≤ j ∧ j < i + l.length) := by
  intro l
  induction l with
  | nil => intro i acc j h; exact Or.inl h
  | cons c cs ih =>
    intro i acc j h
    rw [lastIdxGo] at h
    rcases ih (i + 1) _ j h with h1 | h2
    · by_cases hc : c = ch
      · rw [if_pos hc] at h1
        injection h1 with h1
        right
        subst h1
        simp [List.length_cons]
      · rw [if_neg hc] at h1
        exact Or.inl h1
    · right
      simp only [List.length_cons]
      omega

theorem lastIndexOfWithin_le (ch : Char) (l : List Char) (pos j : Nat)
    (h : lastIndexOfWithin ch l pos = some j) : j ≤ pos := by
  unfold lastIndexOfWithin at h
  rcases lastIdxGo_cases ch _ 0 none j h with h1 | h2
  · exact absurd h1 (by simp)
  · have := List.length_take_le (pos + 1) l
    omega

theorem chooseSplitIndex_le (remaining : List Char) (maxLength : Nat) :
    chooseSplitIndex remaining maxLength ≤ maxLength := by
  unfold chooseSplitIndex
  cases hx : lastIndexOfWithin ' ' remaining maxLength with
  | none => exact le_rfl
  | some j =>
    show (if j * 5 > maxLength * 4 then j else maxLength) ≤ maxLength
    have hj := lastIndexOfWithin_le ' ' remaining maxLength j hx
    by_cases h : j * 5 > maxLength * 4
    · rw [if_pos h]; exact hj
    · rw [if_neg h]

theorem splitGoFuel_isSome (maxLength : Nat) (hm : 0 < maxLength) :
    ∀ (fuel : Nat) (remaining : List Char), remaining.length ≤ fuel →
      (splitGoFuel maxLength fuel remaining).isSome := by
  intro fuel
  induction fuel with
  | zero =>
    intro remaining h
    have h0 : remaining.length = 0 := Nat.le_zero.mp h
    simp [splitGoFuel, h0]
  | succ f ih =>
    intro remaining h
    by_cases h0 : remaining.length = 0
    · simp [splitGoFuel, h0]
    · by_cases h1 : remaining.length ≤ maxLength
      · simp [splitGoFuel, h0, h1]
      · rw [splitGoFuel_stepL maxLength f remaining (by omega)]
        have hpos := chooseSplitIndex_pos remaining maxLength hm
        have hlen : (trimWs (remaining.drop (chooseSplitIndex remaining maxLength))).length ≤ f := by
          have t1 := trimWs_length_le (remaining.drop (chooseSplitIndex remaining maxLength))
          have t2 := List.length_drop (chooseSplitIndex remaining maxLength) remaining
          omega
        have hrec := ih _ hlen
        cases hx : splitGoFuel maxLength f
            (trimWs (remaining.drop (chooseSplitIndex remaining maxLength))) with
        | none => rw [hx] at hrec; simp at hrec
        | some rest => simp [hx]

theorem splitGoFuel_chunks_le (maxLength : Nat) :
    ∀ (fuel : Nat) (remaining : List Char) (xs : List (List Char)),
      splitGoFuel maxLength fuel remaining = some xs → ∀ x ∈ xs, x.length ≤ maxLength := by
  intro fuel
  induction fuel with
  | zero =>
    intro remaining xs h x hx
    by_cases h0 : remaining.length = 0
    · simp [splitGoFuel, h0] at h
      subst h
      cases hx
    · simp [splitGoFuel, h0] at h
  | succ f ih =>
    intro remaining xs h x hx
    by_cases h0 : remaining.length = 0
    · simp [splitGoFuel, h0] at h
      subst h
      cases hx
    · by_cases h1 : remaining.length ≤ maxLength
      · simp [splitGoFuel, h0, h1] at h
        subst h
        rw [List.mem_singleton] at hx
        subst hx
        exact h1
      · rw [splitGoFuel_stepL maxLength f remaining (by omega)] at h
        cases hrec : splitGoFuel maxLength f
            (trimWs (remaining.drop (chooseSplitIndex remaining maxLength))) with
        | none => rw [hrec] at h; simp at h
        | some rest =>
          rw [hrec] at h
          simp only [Option.some.injEq] at h
          subst h
          rcases List.mem_cons.mp hx with hx1 | hx'
          · rw [hx1]
            calc (trimWs (remaining.take (chooseSplitIndex remaining maxLength))).length
                ≤ (remaining.take (chooseSplitIndex remaining maxLength)).length :=
                  trimWs_length_le _
              _ ≤ chooseSplitIndex remaining maxLength := List.length_take_le _ _
              _ ≤ maxLength := chooseSplitIndex_le remaining maxLength
          · exact ih _ rest hrec x hx'

/-- C10: the splitting loop terminates on every input — fuel equal to the
remaining length never runs out, because the chosen split index is positive
so every iteration strictly shortens the remainder — and every chunk it
returns (before the part marker is prepended) is at most
`MAX_MESSAGE_LENGTH` characters long. -/
theorem c10_split : ∀ message : String,
    (splitGoFuel MAX_MESSAGE_LENGTH message.data.length message.data).isSome ∧
    ∀ part ∈ splitMessage message MAX_MESSAGE_LENGTH, part.length ≤ MAX_MESSAGE_LENGTH := by
  intro message
  constructor
  · exact splitGoFuel_isSome MAX_MESSAGE_LENGTH (by decide) _ _ le_rfl
  · intro part hp
    unfold splitMessage at hp
    cases hx : splitGoFuel MAX_MESSAGE_LENGTH message.data.length message.data with
    | none =>
      have hs := splitGoFuel_isSome MAX_MESSAGE_LENGTH (by decide)
        message.data.length message.data le_rfl
      rw [hx] at hs
      simp at hs
    | some xs =>
      rw [hx] at hp
      simp only [Option.getD_some, List.mem_map] at hp
      rcases hp with ⟨x, hxmem, rfl⟩
      rw [length_mk_list]
      exact splitGoFuel_chunks_le MAX_MESSAGE_LENGTH _ _ _ hx x hxmem

/-- C10, witness: the termination and chunk-bound theorem applied to the
concrete message `"ab"`, whose single chunk is the message itself. -/
theorem c10_witness :
    (splitGoFuel MAX_MESSAGE_LENGTH ("ab" : String).data.length ("ab" : String).data).isSome ∧
    (("ab" : String) ∈ splitMessage "ab" MAX_MESSAGE_LENGTH ∧
      ("ab" : String).length ≤ MAX_MESSAGE_LENGTH) :=
  ⟨(c10_split "ab").1, ⟨by decide, (c10_split "ab").2 "ab" (by decide)⟩⟩

/-! ## C5 / C6: weekly-report statistics -/

theorem streakFold_invariant :
    ∀ (l : List Bool) (s m : Nat), s ≤ m →
      (l.foldl
        (fun p b => if b then (p.1 + 1, if p.1 + 1 > p.2 then p.1 + 1 else p.2) else (0, p.2))
        ((s, m) : Nat × Nat)).2 = max m (max (s + headRun l) (maxRunTail l)) := by
  intro l
  induction l with
  | nil =>
    intro s m hsm
    show m = max m (max (s + headRun []) (maxRunTail []))
    simp [headRun, maxRunTail]
    omega
  | cons b bs ih =>
    intro s m hsm
    cases b with
    | true =>
      show (bs.foldl _ ((s + 1, if s + 1 > m then s + 1 else m) : Nat × Nat)).2 = _
      rw [ih (s + 1) (if s + 1 > m then s + 1 else m) (by split <;> omega)]
      have hr : headRun (true :: bs) = headRun bs + 1 := rfl
      have ht : maxRunTail (true :: bs) = maxRun bs := rfl
      have hm : maxRun bs = max (headRun bs) (maxRunTail bs) := by
        cases bs with
        | nil => simp [maxRun, headRun, maxRunTail]
        | cons c cs => show max _ _ = max _ _; rw [maxRunTail]
      rw [hr, ht, hm]
      split <;> omega
    | false =>
      show (bs.foldl _ ((0, m) : Nat × Nat)).2 = _
      rw [ih 0 m (by omega)]
      have hr : headRun (false :: bs) = 0 := rfl
      have ht : maxRunTail (false :: bs) = maxRun bs := rfl
      have hm : maxRun bs = max (headRun bs) (maxRunTail bs) := by
        cases bs with
        | nil => simp [maxRun, headRun, maxRunTail]
        | cons c cs => show max _ _ = max _ _; rw [maxRunTail]
      rw [hr, ht, hm]
      omega

theorem streakFoldB_eq_maxRun (l : List Bool) : streakFoldB l = maxRun l := by
  unfold streakFoldB
  rw [streakFold_invariant l 0 0 le_rfl]
  cases l with
  | nil => simp [headRun, maxRunTail, maxRun]
  | cons b bs =>
    show max 0 (max (0 + headRun (b :: bs)) (maxRun bs)) = max (headRun (b :: bs)) (maxRun bs)
    omega

theorem longestStreak_eq_fold (logs : List DailyLogRow) (weekEnd : Nat) :
    longestStreak logs weekEnd = streakFoldB (presentFlags logs weekEnd) := by
  unfold longestStreak streakFoldB presentFlags
  rw [List.foldl_map]
  have hfun : (fun (p : Nat × Nat) (i : Nat) =>
      match logs.find? (fun l => l.date == (weekEnd - (6 - i))) with
      | some log =>
        if log.checkin_json.isSome then
          (p.1 + 1, if p.1 + 1 > p.2 then p.1 + 1 else p.2)
        else (0, p.2)
      | none => (0, p.2)) =
      (fun (p : Nat × Nat) (i : Nat) =>
        if (match logs.find? (fun l => l.date == (weekEnd - (6 - i))) with
            | some log => log.checkin_json.isSome
            | none => false) then
          (p.1 + 1, if p.1 + 1 > p.2 then p.1 + 1 else p.2)
        else (0, p.2)) := by
    funext p i
    cases hx : logs.find? (fun l => l.date == (weekEnd - (6 - i))) with
    | none => rfl
    | some log => rfl
  rw [hfun]

/-- C5: the weekly streak computation returns the maximum single run of
consecutive days with a non-empty check-in payload within the 7-day window —
in general it equals `maxRun` of the per-day presence flags — and on the
window with check-ins on Mon, Tue, Wed, Fri, Sat and Sun (Thu absent) it
returns 3, not 6 and not a double-counted value. -/
theorem c5_streak :
    longestStreak c5logs 6 = 3 ∧
    ∀ (logs : List DailyLogRow) (weekEnd : Nat),
      longestStreak logs weekEnd = maxRun (presentFlags logs weekEnd) := by
  refine ⟨by decide, ?_⟩
  intro logs weekEnd
  rw [longestStreak_eq_fold, streakFoldB_eq_maxRun]

/-! ## C4: daily-log upsert -/

theorem createDailyLog_spec (db : Db) (userId date : Nat) (p : Option DailyCheckin)
    (hnodup : (db.dailyLogs.map (fun r => r.id)).Nodup)
    (hbound : ∀ r ∈ db.dailyLogs, r.id < db.nextDailyLogId)
    (hone : (db.dailyLogs.filter (fun r => r.user_id == userId && r.date == date)).length ≤ 1) :
    ((createDailyLog db userId date p).dailyLogs.filter
        (fun r => r.user_id == userId && r.date == date)).map (fun r => r.checkin_json) = [p] ∧
    ((createDailyLog db userId date p).dailyLogs.map (fun r => r.id)).Nodup ∧
    (∀ r ∈ (createDailyLog db userId date p).dailyLogs,
      r.id < (createDailyLog db userId date p).nextDailyLogId) := by
  unfold createDailyLog
  cases hf : db.dailyLogs.find? (fun r => r.user_id == userId && r.date == date) with
  | none =>
    rw [List.find?_eq_none] at hf
    have hfil : db.dailyLogs.filter (fun r => r.user_id == userId && r.date == date) = [] :=
      List.filter_eq_nil_iff.mpr hf
    refine ⟨?_, ?_, ?_⟩
    · show ((db.dailyLogs ++ ([⟨db.nextDailyLogId, userId, date, p⟩] : List DailyLogRow)).filter
          (fun (r : DailyLogRow) => r.user_id == userId && r.date == date)).map
          (fun (r : DailyLogRow) => r.checkin_json) = [p]
      rw [List.filter_append, hfil]
      simp
    · show ((db.dailyLogs ++ ([⟨db.nextDailyLogId, userId, date, p⟩] : List DailyLogRow)).map
          (fun (r : DailyLogRow) => r.id)).Nodup
      rw [List.map_append]
      rw [List.nodup_append]
      refine ⟨hnodup, by simp, ?_⟩
      intro a ha
      simp only [List.mem_map] at ha
      rcases ha with ⟨r, hr, rfl⟩
      have := hbound r hr
      simp only [List.map_cons, List.map_nil, List.mem_singleton]
      omega
    · intro r hr
      show r.id < db.nextDailyLogId + 1
      rcases List.mem_append.mp hr with h1 | h2
      · have := hbound r h1
        omega
      · rw [List.mem_singleton] at h2
        subst h2
        show db.nextDailyLogId < db.nextDailyLogId + 1
        omega
  | some e =>
    have he1 : e ∈ db.dailyLogs := List.mem_of_find?_eq_some hf
    have he2 := List.find?_some hf
    have hemem : e ∈ db.dailyLogs.filter (fun r => r.user_id == userId && r.date == date) :=
      List.mem_filter.mpr ⟨he1, he2⟩
    have hlen1 : (db.dailyLogs.filter (fun r => r.user_id == userId && r.date == date)).length = 1 := by
      have : 1 ≤ (db.dailyLogs.filter (fun r => r.user_id == userId && r.date == date)).length := by
        cases hfl : db.dailyLogs.filter (fun r => r.user_id == userId && r.date == date) with
        | nil => rw [hfl] at hemem; cases hemem
        | cons a t => simp [hfl]
      omega
    obtain ⟨a, ha⟩ := List.length_eq_one.mp hlen1
    have hae : a = e := by
      rw [ha] at hemem
      rw [List.mem_singleton] at hemem
      exact hemem.symm
    subst hae
    have honly : ∀ r ∈ db.dailyLogs, (r.user_id == userId && r.date == date) = true → r = a := by
      intro r hr hq
      have : r ∈ db.dailyLogs.filter (fun x => x.user_id == userId && x.date == date) :=
        List.mem_filter.mpr ⟨hr, hq⟩
      rw [ha, List.mem_singleton] at this
      exact this
    obtain ⟨l1, l2, hdec⟩ := List.mem_iff_append.mp he1
    have hid1 : a.id ∉ l1.map (fun r => r.id) := by
      intro hin
      rw [hdec, List.map_append, List.map_cons, List.nodup_append] at hnodup
      exact hnodup.2.2 hin (List.mem_cons_self _ _)
    have hid2 : a.id ∉ l2.map (fun r => r.id) := by
      rw [hdec, List.map_append, List.map_cons, List.nodup_append] at hnodup
      exact (List.nodup_cons.mp hnodup.2.1).1
    have hidf : ∀ r : DailyLogRow,
        (if r.id == a.id then
          ({ r with user_id := userId, date := date, checkin_json := p } : DailyLogRow)
        else r).id = r.id := by
      intro r
      by_cases h : (r.id == a.id) = true
      · rw [if_pos h]
      · rw [if_neg h]
    have hne1 : ∀ r ∈ l1, ¬(r.id == a.id) = true := by
      intro r hr hb
      exact hid1 (by
        have h2 : r.id ∈ List.map (fun (x : DailyLogRow) => x.id) l1 :=
          List.mem_map_of_mem (fun x => x.id) hr
        rwa [eq_of_beq hb] at h2)
    have hne2 : ∀ r ∈ l2, ¬(r.id == a.id) = true := by
      intro r hr hb
      exact hid2 (by
        have h2 : r.id ∈ List.map (fun (x : DailyLogRow) => x.id) l2 :=
          List.mem_map_of_mem (fun x => x.id) hr
        rwa [eq_of_beq hb] at h2)
    have hupd : db.dailyLogs.map (fun r => if r.id == a.id then
        ({ r with user_id := userId, date := date, checkin_json := p } : DailyLogRow) else r) =
        l1 ++ ({ a with user_id := userId, date := date, checkin_json := p } : DailyLogRow) :: l2 := by
      rw [hdec, List.map_append, List.map_cons]
      have hmap1 : l1.map (fun r => if r.id == a.id then
          ({ r with user_id := userId, date := date, checkin_json := p } : DailyLogRow) else r) =
          l1 := by
        conv_rhs => rw [show l1 = l1.map id from (List.map_id l1).symm]
        apply List.map_eq_map_iff.mpr
        intro r hr
        rw [if_neg (hne1 r hr)]
        rfl
      have hmap2 : l2.map (fun r => if r.id == a.id then
          ({ r with user_id := userId, date := date, checkin_json := p } : DailyLogRow) else r) =
          l2 := by
        conv_rhs => rw [show l2 = l2.map id from (List.map_id l2).symm]
        apply List.map_eq_map_iff.mpr
        intro r hr
        rw [if_neg (hne2 r hr)]
        rfl
      rw [hmap1, hmap2, if_pos (by simp)]
    have hfl1 : l1.filter (fun r => r.user_id == userId && r.date == date) = [] := by
      apply List.filter_eq_nil_iff.mpr
      intro r hr hq
      have hra : r = a := honly r (by rw [hdec]; exact List.mem_append_left _ hr) hq
      subst hra
      exact hid1 (List.mem_map_of_mem (fun x => x.id) hr)
    have hfl2 : l2.filter (fun r => r.user_id == userId && r.date == date) = [] := by
      apply List.filter_eq_nil_iff.mpr
      intro r hr hq
      have hra : r = a := honly r (by
        rw [hdec]
        exact List.mem_append_right _ (List.mem_cons_of_mem _ hr)) hq
      subst hra
      exact hid2 (List.mem_map_of_mem (fun x => x.id) hr)
    refine ⟨?_, ?_, ?_⟩
    · show ((db.dailyLogs.map (fun r => if r.id == a.id then
          ({ r with user_id := userId, date := date, checkin_json := p } : DailyLogRow) else r)).filter
            (fun (r : DailyLogRow) => r.user_id == userId && r.date == date)).map
          (fun (r : DailyLogRow) => r.checkin_json) = [p]
      rw [hupd, List.filter_append, hfl1, List.filter_cons, hfl2]
      simp
    · show ((db.dailyLogs.map (fun r => if r.id == a.id then
          ({ r with user_id := userId, date := date, checkin_json := p } : DailyLogRow) else r)).map
          (fun (r : DailyLogRow) => r.id)).Nodup
      rw [List.map_map]
      have : ((fun (r : DailyLogRow) => r.id) ∘ (fun r => if r.id == a.id then
          ({ r with user_id := userId, date := date, checkin_json := p } : DailyLogRow) else r)) =
          (fun (r : DailyLogRow) => r.id) := by
        funext r
        exact hidf r
      rw [this]
      exact hnodup
    · intro r hr
      show r.id < db.nextDailyLogId
      have hr' : r ∈ db.dailyLogs.map (fun x => if x.id == a.id then
          ({ x with user_id := userId, date := date, checkin_json := p } : DailyLogRow) else x) := hr
      rcases List.mem_map.mp hr' with ⟨x, hx, rfl⟩
      rw [hidf x]
      exact hbound x hx

/-- C6: the weekly completeness rate is `round(thisWeekCount / 7 * 100)` over
the current 7-day window; when exactly 5 of the last 7 days carry a
non-empty check-in payload it equals 71. -/
theorem c6_completeness (dailyLogs : List DailyLogRow) (today : Nat)
    (h : countCheckins (logsThisWeek dailyLogs today) = 5) :
    completenessRate (countCheckins (logsThisWeek dailyLogs today)) = 71 := by
  rw [h]
  norm_num [completenessRate, round_eq]

/-- C6, witness: a concrete week (today = day 40) with non-empty check-ins on
5 of the last 7 days. -/
theorem c6_witness :
    countCheckins (logsThisWeek c6logs 40) = 5 ∧
    completenessRate (countCheckins (logsThisWeek c6logs 40)) = 71 :=
  ⟨by decide, c6_completeness c6logs 40 (by decide)⟩

/-- C4: upserting the daily log twice for the same `(user, date)` — starting
from any table state whose row ids are unique and below the fresh-id counter
and which holds at most one row for that key — leaves exactly one row for
that key, and that row stores the second call's payload. -/
theorem c4_upsert (db : Db) (userId date : Nat) (p1 p2 : Option DailyCheckin)
    (hnodup : (db.dailyLogs.map (fun r => r.id)).Nodup)
    (hbound : ∀ r ∈ db.dailyLogs, r.id < db.nextDailyLogId)
    (hone : (db.dailyLogs.filter (fun r => r.user_id == userId && r.date == date)).length ≤ 1) :
    ((createDailyLog (createDailyLog db userId date p1) userId date p2).dailyLogs.filter
        (fun r => r.user_id == userId && r.date == date)).length = 1 ∧
    ((createDailyLog (createDailyLog db userId date p1) userId date p2).dailyLogs.filter
        (fun r => r.user_id == userId && r.date == date)).map (fun r => r.checkin_json) = [p2] := by
  obtain ⟨hmap1, hnodup1, hbound1⟩ := createDailyLog_spec db userId date p1 hnodup hbound hone
  have hone1 : ((createDailyLog db userId date p1).dailyLogs.filter
      (fun r => r.user_id == userId && r.date == date)).length ≤ 1 := by
    have hlen := congrArg List.length hmap1
    simp only [List.length_map] at hlen
    simp [hlen]
  obtain ⟨hmap2, hn2, hb2⟩ := createDailyLog_spec (createDailyLog db userId date p1)
    userId date p2 hnodup1 hbound1 hone1
  refine ⟨?_, hmap2⟩
  have hlen := congrArg List.length hmap2
  simp only [List.length_map] at hlen
  simpa using hlen

/-- C4, witness: two upserts for `(user 1, date 40)` on the empty table: the
first inserts a payload, the second overwrites it with `null`. -/
theorem c4_witness :
    ((createDailyLog (createDailyLog db0 1 40 (some someCheckin)) 1 40 none).dailyLogs.filter
        (fun r => r.user_id == 1 && r.date == 40)).length = 1 ∧
    ((createDailyLog (createDailyLog db0 1 40 (some someCheckin)) 1 40 none).dailyLogs.filter
        (fun r => r.user_id == 1 && r.date == 40)).map (fun r => r.checkin_json) = [none] :=
  c4_upsert db0 1 40 (some someCheckin) none (by decide) (by decide) (by decide)

/-! ## C1 / C9: webhook handler -/

theorem messages_createUser (db : Db) (phone : String) (name : Option String) :
    (createUser db phone name).2.messages = db.messages := by
  simp only [createUser]
  split <;> rfl

theorem messages_resolveUser (db : Db) (md : ParsedIncomingMessage) :
    (resolveUser db md).2.messages = db.messages := by
  simp only [resolveUser]
  split
  · rfl
  · exact messages_createUser _ _ _

theorem messages_createDailyLog (db : Db) (u dt : Nat) (p : Option DailyCheckin) :
    (createDailyLog db u dt p).messages = db.messages := by
  simp only [createDailyLog]
  split <;> rfl

theorem messages_goalOps (db : Db) (uid : Nat) (mg : String) (r t : Option String)
    (bds : List BreakdownInput) :
    (if 0 < bds.length then
        addGoalBreakdowns (setMainGoal db uid mg r t).2 (setMainGoal db uid mg r t).1.id bds
      else (setMainGoal db uid mg r t).2).messages = db.messages := by
  split <;> rfl

theorem outboundMessages_congr (d1 d2 : Db) (h : d1.messages = d2.messages) :
    outboundMessages d1 = outboundMessages d2 := by
  unfold outboundMessages
  rw [h]

theorem outbound_log_inbound (db : Db) (uid : Nat) (b : String) :
    outboundMessages (logMessage db uid .inbound b) = outboundMessages db := by
  unfold outboundMessages logMessage
  rw [List.filter_append]
  simp

theorem outbound_log_outbound (db : Db) (uid : Nat) (b : String) :
    outboundMessages (logMessage db uid .outbound b) =
      outboundMessages db ++ [⟨uid, .outbound, b⟩] := by
  unfold outboundMessages logMessage
  rw [List.filter_append]
  simp

theorem finishSend_none (env : Env) (db : Db) (uid : Nat) (msg : String)
    (h : env.sendResult = none) :
    finishSend env db uid msg = (.success none, db) := by
  unfold finishSend
  rw [h]

theorem finishSend_some (env : Env) (db : Db) (uid : Nat) (msg : String) (sid : String)
    (h : env.sendResult = some sid) :
    finishSend env db uid msg = (.success (some sid), logMessage db uid .outbound msg) := by
  unfold finishSend
  rw [h]

theorem handle_routes (env : Env) (db : Db) (req : WebhookRequest)
    (hf : ¬((parseIncomingMessage req).mFrom = ""))
    (hb : ¬((parseIncomingMessage req).mBody = "")) :
    handleWhatsAppWebhook env db req =
      routeMessage env
        (logMessage (resolveUser db (parseIncomingMessage req)).2
          (resolveUser db (parseIncomingMessage req)).1.id .inbound
          (parseIncomingMessage req).mBody)
        (resolveUser db (parseIncomingMessage req)).1 (parseIncomingMessage req) := by
  have hcond : ((parseIncomingMessage req).mFrom == "" ||
      (parseIncomingMessage req).mBody == "") = false := by
    simp [hf, hb]
  simp only [handleWhatsAppWebhook, hcond]
  rfl

theorem exists_outbound (db base : Db) (uid : Nat) (msg : String)
    (h : outboundMessages base = outboundMessages db) :
    ∃ u b, outboundMessages (logMessage base uid .outbound msg) =
      outboundMessages db ++ [⟨u, .outbound, b⟩] :=
  ⟨uid, msg, by rw [outbound_log_outbound, h]⟩

/-- C1 (amended): for every valid inbound message, in every branch that
reaches the shared send tail (goal, check-in, general response), the
outbound Message row is persisted only if the send reports success, and a
failed send still yields the success-shaped response with a null message
id; the weekly-report branch however logs the outbound Message regardless
of the send outcome and returns a success-shaped response that carries no
message identifier at all. -/
theorem c1_amended (env : Env) (db : Db) (req : WebhookRequest)
    (hf : ¬((parseIncomingMessage req).mFrom = ""))
    (hb : ¬((parseIncomingMessage req).mBody = "")) :
    (weeklyCmd (parseIncomingMessage req).mBody = false →
      env.sendResult = none →
        (handleWhatsAppWebhook env db req).1 = .success none ∧
        outboundMessages (handleWhatsAppWebhook env db req).2 = outboundMessages db) ∧
    (weeklyCmd (parseIncomingMessage req).mBody = false →
      ∀ sid, env.sendResult = some sid →
        (handleWhatsAppWebhook env db req).1 = .success (some sid) ∧
        ∃ uid body, outboundMessages (handleWhatsAppWebhook env db req).2 =
          outboundMessages db ++ [⟨uid, .outbound, body⟩]) ∧
    (weeklyCmd (parseIncomingMessage req).mBody = true →
      (handleWhatsAppWebhook env db req).1 = .weeklySent ∧
      ∃ uid, outboundMessages (handleWhatsAppWebhook env db req).2 =
        outboundMessages db ++ [⟨uid, .outbound, env.weeklyReportText⟩]) := by
  have hroute := handle_routes env db req hf hb
  have houtdb1 : outboundMessages
      (logMessage (resolveUser db (parseIncomingMessage req)).2
        (resolveUser db (parseIncomingMessage req)).1.id .inbound
        (parseIncomingMessage req).mBody) = outboundMessages db := by
    rw [outbound_log_inbound]
    exact outboundMessages_congr _ _ (messages_resolveUser db _)
  refine ⟨?_, ?_, ?_⟩
  · intro hw hsend
    rw [hroute]
    unfold routeMessage
    rw [hw]
    simp only [Bool.false_eq_true, if_false]
    cases hg : goalDeclFields (parseIncomingMessage req).mBody with
    | some t =>
      obtain ⟨mg, rs, tl⟩ := t
      simp only [goalBranch]
      rw [finishSend_none env _ _ _ hsend]
      refine ⟨rfl, ?_⟩
      show outboundMessages (if 0 < env.breakdownsOut.length then _ else _) = _
      rw [outboundMessages_congr _ _ (messages_goalOps _ _ _ _ _ _)]
      exact houtdb1
    | none =>
      simp only [checkinOrGeneral]
      cases hc : (match parseMorningCheckin (parseIncomingMessage req).mBody with
        | some c => some c
        | none => env.flexibleOut) with
      | some c =>
        simp only []
        rw [finishSend_none env _ _ _ hsend]
        refine ⟨rfl, ?_⟩
        rw [outboundMessages_congr _ _ (messages_createDailyLog _ _ _ _)]
        exact houtdb1
      | none =>
        simp only []
        rw [finishSend_none env _ _ _ hsend]
        exact ⟨rfl, houtdb1⟩
  · intro hw sid hsend
    rw [hroute]
    unfold routeMessage
    rw [hw]
    simp only [Bool.false_eq_true, if_false]
    cases hg : goalDeclFields (parseIncomingMessage req).mBody with
    | some t =>
      obtain ⟨mg, rs, tl⟩ := t
      simp only [goalBranch]
      rw [finishSend_some env _ _ _ sid hsend]
      refine ⟨rfl, ?_⟩
      exact exists_outbound db _ _ _
        (by rw [outboundMessages_congr _ _ (messages_goalOps _ _ _ _ _ _)]; exact houtdb1)
    | none =>
      simp only [checkinOrGeneral]
      cases hc : (match parseMorningCheckin (parseIncomingMessage req).mBody with
        | some c => some c
        | none => env.flexibleOut) with
      | some c =>
        simp only []
        rw [finishSend_some env _ _ _ sid hsend]
        refine ⟨rfl, ?_⟩
        exact exists_outbound db _ _ _
          (by rw [outboundMessages_congr _ _ (messages_createDailyLog _ _ _ _)]; exact houtdb1)
      | none =>
        simp only []
        rw [finishSend_some env _ _ _ sid hsend]
        refine ⟨rfl, ?_⟩
        exact exists_outbound db _ _ _ houtdb1
  · intro hw
    rw [hroute]
    unfold routeMessage
    rw [hw, if_pos rfl]
    refine ⟨rfl, ?_⟩
    refine ⟨(resolveUser db (parseIncomingMessage req)).1.id, ?_⟩
    show outboundMessages (logMessage _ _ .outbound env.weeklyReportText) = _
    rw [outbound_log_outbound, houtdb1]

/-- C1, counterexample: in the weekly-report branch with a failing send
(`sendWhatsAppMessage` returns `null`), an outbound Message row IS
persisted and the response carries no message identifier, contradicting
the claim that a failed send never persists an outbound Message. -/
theorem c1_counterexample :
    env0.sendResult = none ∧
    (handleWhatsAppWebhook env0 db0 reqWeekly).1 = .weeklySent ∧
    outboundMessages (handleWhatsAppWebhook env0 db0 reqWeekly).2 =
      [⟨1, .outbound, "Your weekly report"⟩] := by
  decide

/-- C1, witness: the amended theorem applied to a plain "hello" message with
a failing send: no outbound row, success response with null sid. -/
theorem c1_witness :
    (handleWhatsAppWebhook env0 db0 reqHello).1 = .success none ∧
    outboundMessages (handleWhatsAppWebhook env0 db0 reqHello).2 = outboundMessages db0 :=
  (c1_amended env0 db0 reqHello (by decide) (by decide)).1 (by decide) rfl

/-- C9: a webhook request whose parsed payload has an empty sender or an
empty body is rejected with the 400 response before any persistence: the
handler returns the client-error response and the database is unchanged (no
User, Message or DailyLog row is written). -/
theorem c9_validation (env : Env) (db : Db) (req : WebhookRequest)
    (h : (parseIncomingMessage req).mFrom = "" ∨ (parseIncomingMessage req).mBody = "") :
    handleWhatsAppWebhook env db req = (.invalid, db) := by
  have hb : ((parseIncomingMessage req).mFrom == "" ||
      (parseIncomingMessage req).mBody == "") = true := by
    rcases h with h | h <;> simp [h]
  simp only [handleWhatsAppWebhook, hb]
  rfl

/-- C9, witness: a request with a sender but no body is rejected and leaves
the empty database empty. -/
theorem c9_witness :
    ((parseIncomingMessage reqNoBody).mFrom = "" ∨ (parseIncomingMessage reqNoBody).mBody = "") ∧
    handleWhatsAppWebhook env0 db0 reqNoBody = (.invalid, db0) :=
  ⟨Or.inr rfl, c9_validation env0 db0 reqNoBody (Or.inr rfl)⟩

/-! ## C7: the goal-declaration pattern -/

theorem skipWs_cons_of_ws (c : Char) (h : isJsWs c = true) (l : List Char) :
    skipWs (c :: l) = skipWs l := by
  simp [skipWs, List.dropWhile_cons, h]

theorem skipWs_cons_of_not (c : Char) (h : isJsWs c = false) (l : List Char) :
    skipWs (c :: l) = c :: l := by
  simp [skipWs, List.dropWhile_cons, h]

theorem dropWhile_append_of_ne_nil (p : Char → Bool) (l1 l2 : List Char)
    (h : l1.dropWhile p ≠ []) :
    (l1 ++ l2).dropWhile p = l1.dropWhile p ++ l2 := by
  rw [List.dropWhile_append]
  simp only [List.isEmpty_iff]
  rw [if_neg h]

theorem goalDelim_fail (x2 rest : List Char)
    (hne : x2 ≠ [])
    (hmem : ∀ c ∈ x2, ¬(c = '|') ∧ isLineTerm c = false)
    (hlast : ∀ c, x2.getLast? = some c → isJsWs c = false) :
    goalDelim (x2 ++ rest) = none := by
  obtain ⟨d, hd⟩ : ∃ d, x2.getLast? = some d := by
    cases hx : x2.getLast? with
    | none => exact absurd (List.getLast?_eq_none_iff.mp hx) hne
    | some d => exact ⟨d, rfl⟩
  have hdns : isJsWs d = false := hlast d hd
  have hdw : x2.dropWhile isJsWs ≠ [] := by
    intro hnil
    have hall : ∀ c ∈ x2, isJsWs c = true := by
      intro c hc
      exact List.dropWhile_eq_nil_iff.mp hnil c hc
    have := hall d (List.mem_of_mem_getLast? hd)
    rw [hdns] at this
    cases this
  have happ : skipWs (x2 ++ rest) = x2.dropWhile isJsWs ++ rest :=
    dropWhile_append_of_ne_nil _ _ _ hdw
  unfold goalDelim
  rw [happ]
  cases hdw2 : x2.dropWhile isJsWs with
  | nil => exact absurd hdw2 hdw
  | cons d0 t0 =>
    have hd0mem : d0 ∈ x2 := by
      have : d0 ∈ x2.dropWhile isJsWs := by rw [hdw2]; exact List.mem_cons_self _ _
      exact (List.dropWhile_sublist _).subset this
    have hd0 : ¬(d0 = '|') := (hmem d0 hd0mem).1
    show (if d0 = '|' then some (t0 ++ rest) else goalDelimSnd (x2 ++ rest)) = none
    rw [if_neg hd0]
    cases x2 with
    | nil => exact absurd rfl hne
    | cons a x2' =>
      have ha : isLineTerm a = false := (hmem a (List.mem_cons_self _ _)).2
      have hann : ¬(a = '\n') := by
        intro h
        subst h
        simp [isLineTerm] at ha
      show (if a = '\n' then some (x2' ++ rest) else none) = none
      rw [if_neg hann]

theorem getLast?_cons_of_ne_nil (c : Char) (cs : List Char) (h : cs ≠ []) :
    (c :: cs).getLast? = cs.getLast? := by
  cases cs with
  | nil => exact absurd rfl h
  | cons b t => exact List.getLast?_cons_cons

theorem goalCapture2_cross (g1 : List Char) :
    ∀ (y acc rest : List Char),
      y ≠ [] →
      (∀ c ∈ y, ¬(c = '|') ∧ isLineTerm c = false) →
      (∀ c, y.getLast? = some c → isJsWs c = false) →
      goalCapture2 g1 acc (y ++ rest) =
        match goalAfterG2 g1 (acc ++ y) rest with
        | some r => some r
        | none => goalCapture2 g1 (acc ++ y) rest := by
  intro y
  induction y with
  | nil => intro acc rest h; exact absurd rfl h
  | cons c cs ih =>
    intro acc rest hne hmem hlast
    by_cases hcs : cs = []
    · subst hcs
      rfl
    · show goalCapture2 g1 acc (c :: (cs ++ rest)) = _
      rw [goalCapture2]
      have hfail : goalAfterG2 g1 (acc ++ [c]) (cs ++ rest) = none := by
        unfold goalAfterG2
        rw [goalDelim_fail cs rest hcs
          (fun d hd => hmem d (List.mem_cons_of_mem _ hd))
          (fun d hd => hlast d (by rwa [getLast?_cons_of_ne_nil c cs hcs]))]
      rw [hfail]
      rw [ih (acc ++ [c]) rest hcs
        (fun d hd => hmem d (List.mem_cons_of_mem _ hd))
        (fun d hd => hlast d (by rwa [getLast?_cons_of_ne_nil c cs hcs]))]
      rw [List.append_assoc]
      rfl

theorem goalCapture1_cross :
    ∀ (y acc rest : List Char),
      y ≠ [] →
      (∀ c ∈ y, ¬(c = '|') ∧ isLineTerm c = false) →
      (∀ c, y.getLast? = some c → isJsWs c = false) →
      goalCapture1 acc (y ++ rest) =
        match goalAfterG1 (acc ++ y) rest with
        | some r => some r
        | none => goalCapture1 (acc ++ y) rest := by
  intro y
  induction y with
  | nil => intro acc rest h; exact absurd rfl h
  | cons c cs ih =>
    intro acc rest hne hmem hlast
    by_cases hcs : cs = []
    · subst hcs
      rfl
    · show goalCapture1 acc (c :: (cs ++ rest)) = _
      rw [goalCapture1]
      have hfail : goalAfterG1 (acc ++ [c]) (cs ++ rest) = none := by
        unfold goalAfterG1
        rw [goalDelim_fail cs rest hcs
          (fun d hd => hmem d (List.mem_cons_of_mem _ hd))
          (fun d hd => hlast d (by rwa [getLast?_cons_of_ne_nil c cs hcs]))]
      rw [hfail]
      rw [ih (acc ++ [c]) rest hcs
        (fun d hd => hmem d (List.mem_cons_of_mem _ hd))
        (fun d hd => hlast d (by rwa [getLast?_cons_of_ne_nil c cs hcs]))]
      rw [List.append_assoc]
      rfl

theorem dotallRest_ws_cons (d : Char) (t : List Char) (hd : isJsWs d = false) :
    dotallRest (' ' :: d :: t) = some (d :: t) := by
  unfold dotallRest
  rw [show skipWs (' ' :: d :: t) = d :: t from by
    rw [skipWs_cons_of_ws ' ' (by decide), skipWs_cons_of_not d hd]]

theorem goalAfterG2_pipe (g1 g2 : List Char) (d : Char) (t : List Char)
    (hd : isJsWs d = false) :
    goalAfterG2 g1 g2 (" | Timeline: ".data ++ (d :: t)) = some (g1, g2, d :: t) := by
  have h1 : goalAfterG2 g1 g2 (" | Timeline: ".data ++ (d :: t)) =
      (match dotallRest (' ' :: d :: t) with
       | some g3 => some (g1, g2, g3)
       | none => none) := rfl
  rw [h1, dotallRest_ws_cons d t hd]

theorem goalAfterG2_nl (g1 g2 : List Char) (d : Char) (t : List Char)
    (hd : isJsWs d = false) :
    goalAfterG2 g1 g2 ("\nTimeline: ".data ++ (d :: t)) = some (g1, g2, d :: t) := by
  have h1 : goalAfterG2 g1 g2 ("\nTimeline: ".data ++ (d :: t)) =
      (match dotallRest (' ' :: d :: t) with
       | some g3 => some (g1, g2, g3)
       | none => none) := rfl
  rw [h1, dotallRest_ws_cons d t hd]

theorem goalAfterG1_pipe (g1 : List Char) (e : Char) (u rest2 : List Char)
    (he : isJsWs e = false) :
    goalAfterG1 g1 (" | Reason: ".data ++ (e :: u) ++ rest2) =
      goalCapture2 g1 [] (e :: (u ++ rest2)) := by
  have h1 : goalAfterG1 g1 (" | Reason: ".data ++ (e :: u) ++ rest2) =
      goalCapture2 g1 [] (skipWs (' ' :: e :: (u ++ rest2))) := rfl
  rw [h1, skipWs_cons_of_ws ' ' (by decide), skipWs_cons_of_not e he]

theorem goalAfterG1_nl (g1 : List Char) (e : Char) (u rest2 : List Char)
    (he : isJsWs e = false) :
    goalAfterG1 g1 ("\nReason: ".data ++ (e :: u) ++ rest2) =
      goalCapture2 g1 [] (e :: (u ++ rest2)) := by
  have h1 : goalAfterG1 g1 ("\nReason: ".data ++ (e :: u) ++ rest2) =
      goalCapture2 g1 [] (skipWs (' ' :: e :: (u ++ rest2))) := rfl
  rw [h1, skipWs_cons_of_ws ' ' (by decide), skipWs_cons_of_not e he]

theorem goalMatchAt_start (d : Char) (t rest : List Char) (hd : isJsWs d = false) :
    goalMatchAt ("Goal: ".data ++ (d :: t) ++ rest) =
      goalCapture1 [] (d :: (t ++ rest)) := by
  have h1 : goalMatchAt ("Goal: ".data ++ (d :: t) ++ rest) =
      goalCapture1 [] (skipWs (' ' :: d :: (t ++ rest))) := rfl
  rw [h1, skipWs_cons_of_ws ' ' (by decide), skipWs_cons_of_not d hd]

theorem plainField_parts (l : List Char) (h : plainField l = true) :
    l ≠ [] ∧ (∀ c ∈ l, ¬(c = '|') ∧ isLineTerm c = false) ∧
    (∀ c, l.head? = some c → isJsWs c = false) ∧
    (∀ c, l.getLast? = some c → isJsWs c = false) := by
  unfold plainField at h
  simp only [Bool.and_eq_true] at h
  obtain ⟨⟨⟨hne, hall⟩, hhead⟩, hlast⟩ := h
  refine ⟨?_, ?_, ?_, ?_⟩
  · intro hnil
    subst hnil
    simp at hne
  · intro c hc
    have hc2 := List.all_eq_true.mp hall c hc
    simp only [Bool.and_eq_true, Bool.not_eq_true'] at hc2
    refine ⟨?_, hc2.2⟩
    intro he
    rw [he] at hc2
    simp at hc2
  · intro c hc
    rw [hc] at hhead
    simpa using hhead
  · intro c hc
    rw [hc] at hlast
    simpa using hlast

theorem goalSearch_of_matchAt (c : Char) (cs : List Char)
    (r : List Char × List Char × List Char)
    (h : goalMatchAt (c :: cs) = some r) : goalSearch (c :: cs) = some r := by
  rw [goalSearch, h]

theorem goalSearch_pipe (X Y Z : List Char)
    (hX : plainField X = true) (hY : plainField Y = true) (hZ : plainField Z = true) :
    goalSearch (goalPipeForm X Y Z) = some (X, Y, Z) := by
  obtain ⟨hXne, hXmem, hXhead, hXlast⟩ := plainField_parts X hX
  obtain ⟨hYne, hYmem, hYhead, hYlast⟩ := plainField_parts Y hY
  obtain ⟨hZne, hZmem, hZhead, hZlast⟩ := plainField_parts Z hZ
  obtain ⟨dX, tX, rfl⟩ : ∃ d t, X = d :: t := by
    cases X with
    | nil => exact absurd rfl hXne
    | cons d t => exact ⟨d, t, rfl⟩
  obtain ⟨dY, tY, rfl⟩ : ∃ d t, Y = d :: t := by
    cases Y with
    | nil => exact absurd rfl hYne
    | cons d t => exact ⟨d, t, rfl⟩
  obtain ⟨dZ, tZ, rfl⟩ : ∃ d t, Z = d :: t := by
    cases Z with
    | nil => exact absurd rfl hZne
    | cons d t => exact ⟨d, t, rfl⟩
  have hdX : isJsWs dX = false := hXhead dX rfl
  have hdY : isJsWs dY = false := hYhead dY rfl
  have hdZ : isJsWs dZ = false := hZhead dZ rfl
  have hc2 : goalCapture2 (dX :: tX) [] ((dY :: tY) ++ (" | Timeline: ".data ++ (dZ :: tZ))) =
      some (dX :: tX, dY :: tY, dZ :: tZ) := by
    rw [goalCapture2_cross (dX :: tX) (dY :: tY) [] _ (by simp) hYmem hYlast,
      List.nil_append]
    rw [goalAfterG2_pipe (dX :: tX) (dY :: tY) dZ tZ hdZ]
  have haft1 : goalAfterG1 (dX :: tX)
      (" | Reason: ".data ++ (dY :: tY) ++ (" | Timeline: ".data ++ (dZ :: tZ))) =
      some (dX :: tX, dY :: tY, dZ :: tZ) := by
    rw [goalAfterG1_pipe (dX :: tX) dY tY _ hdY]
    show goalCapture2 (dX :: tX) [] ((dY :: tY) ++ (" | Timeline: ".data ++ (dZ :: tZ))) = _
    exact hc2
  have hcap1 : goalCapture1 []
      ((dX :: tX) ++ (" | Reason: ".data ++ (dY :: tY) ++ (" | Timeline: ".data ++ (dZ :: tZ)))) =
      some (dX :: tX, dY :: tY, dZ :: tZ) := by
    rw [goalCapture1_cross (dX :: tX) [] _ (by simp) hXmem hXlast, List.nil_append, haft1]
  have hmatch : goalMatchAt ("Goal: ".data ++ (dX :: tX) ++
      (" | Reason: ".data ++ (dY :: tY) ++ (" | Timeline: ".data ++ (dZ :: tZ)))) =
      some (dX :: tX, dY :: tY, dZ :: tZ) := by
    rw [goalMatchAt_start dX tX _ hdX]
    show goalCapture1 []
      ((dX :: tX) ++ (" | Reason: ".data ++ (dY :: tY) ++ (" | Timeline: ".data ++ (dZ :: tZ)))) = _
    exact hcap1
  have hform : goalPipeForm (dX :: tX) (dY :: tY) (dZ :: tZ) =
      "Goal: ".data ++ (dX :: tX) ++
        (" | Reason: ".data ++ (dY :: tY) ++ (" | Timeline: ".data ++ (dZ :: tZ))) := by
    simp [goalPipeForm, List.append_assoc]
  rw [hform]
  exact goalSearch_of_matchAt _ _ _ hmatch

theorem goalSearch_nl (X Y Z : List Char)
    (hX : plainField X = true) (hY : plainField Y = true) (hZ : plainField Z = true) :
    goalSearch (goalNlForm X Y Z) = some (X, Y, Z) := by
  obtain ⟨hXne, hXmem, hXhead, hXlast⟩ := plainField_parts X hX
  obtain ⟨hYne, hYmem, hYhead, hYlast⟩ := plainField_parts Y hY
  obtain ⟨hZne, hZmem, hZhead, hZlast⟩ := plainField_parts Z hZ
  obtain ⟨dX, tX, rfl⟩ : ∃ d t, X = d :: t := by
    cases X with
    | nil => exact absurd rfl hXne
    | cons d t => exact ⟨d, t, rfl⟩
  obtain ⟨dY, tY, rfl⟩ : ∃ d t, Y = d :: t := by
    cases Y with
    | nil => exact absurd rfl hYne
    | cons d t => exact ⟨d, t, rfl⟩
  obtain ⟨dZ, tZ, rfl⟩ : ∃ d t, Z = d :: t := by
    cases Z with
    | nil => exact absurd rfl hZne
    | cons d t => exact ⟨d, t, rfl⟩
  have hdX : isJsWs dX = false := hXhead dX rfl
  have hdY : isJsWs dY = false := hYhead dY rfl
  have hdZ : isJsWs dZ = false := hZhead dZ rfl
  have hc2 : goalCapture2 (dX :: tX) [] ((dY :: tY) ++ ("\nTimeline: ".data ++ (dZ :: tZ))) =
      some (dX :: tX, dY :: tY, dZ :: tZ) := by
    rw [goalCapture2_cross (dX :: tX) (dY :: tY) [] _ (by simp) hYmem hYlast,
      List.nil_append]
    rw [goalAfterG2_nl (dX :: tX) (dY :: tY) dZ tZ hdZ]
  have haft1 : goalAfterG1 (dX :: tX)
      ("\nReason: ".data ++ (dY :: tY) ++ ("\nTimeline: ".data ++ (dZ :: tZ))) =
      some (dX :: tX, dY :: tY, dZ :: tZ) := by
    rw [goalAfterG1_nl (dX :: tX) dY tY _ hdY]
    show goalCapture2 (dX :: tX) [] ((dY :: tY) ++ ("\nTimeline: ".data ++ (dZ :: tZ))) = _
    exact hc2
  have hcap1 : goalCapture1 []
      ((dX :: tX) ++ ("\nReason: ".data ++ (dY :: tY) ++ ("\nTimeline: ".data ++ (dZ :: tZ)))) =
      some (dX :: tX, dY :: tY, dZ :: tZ) := by
    rw [goalCapture1_cross (dX :: tX) [] _ (by simp) hXmem hXlast, List.nil_append, haft1]
  have hmatch : goalMatchAt ("Goal: ".data ++ (dX :: tX) ++
      ("\nReason: ".data ++ (dY :: tY) ++ ("\nTimeline: ".data ++ (dZ :: tZ)))) =
      some (dX :: tX, dY :: tY, dZ :: tZ) := by
    rw [goalMatchAt_start dX tX _ hdX]
    show goalCapture1 []
      ((dX :: tX) ++ ("\nReason: ".data ++ (dY :: tY) ++ ("\nTimeline: ".data ++ (dZ :: tZ)))) = _
    exact hcap1
  have hform : goalNlForm (dX :: tX) (dY :: tY) (dZ :: tZ) =
      "Goal: ".data ++ (dX :: tX) ++
        ("\nReason: ".data ++ (dY :: tY) ++ ("\nTimeline: ".data ++ (dZ :: tZ))) := by
    simp [goalNlForm, List.append_assoc]
  rw [hform]
  exact goalSearch_of_matchAt _ _ _ hmatch

/-- C7: the goal-declaration parser accepts both the pipe-delimited
single-line form and the newline-delimited multi-line form, and for the same
field values X, Y, Z — any values that are non-empty, contain no `'|'` and
no line terminator, and do not start or end in whitespace — it extracts
exactly (X, Y, Z) from both forms. -/
theorem c7_goal_forms (X Y Z : List Char)
    (hX : plainField X = true) (hY : plainField Y = true) (hZ : plainField Z = true) :
    goalDeclFields (String.mk (goalPipeForm X Y Z)) =
      some (String.mk X, String.mk Y, String.mk Z) ∧
    goalDeclFields (String.mk (goalNlForm X Y Z)) =
      some (String.mk X, String.mk Y, String.mk Z) := by
  obtain ⟨hXne, hXmem, hXhead, hXlast⟩ := plainField_parts X hX
  obtain ⟨hYne, hYmem, hYhead, hYlast⟩ := plainField_parts Y hY
  obtain ⟨hZne, hZmem, hZhead, hZlast⟩ := plainField_parts Z hZ
  have htX : trimWs X = X := trimWs_eq_self X hXhead hXlast
  have htY : trimWs Y = Y := trimWs_eq_self Y hYhead hYlast
  have htZ : trimWs Z = Z := trimWs_eq_self Z hZhead hZlast
  constructor
  · show (goalSearch (goalPipeForm X Y Z)).map
      (fun g => (String.mk (trimWs g.1), String.mk (trimWs g.2.1), String.mk (trimWs g.2.2))) = _
    rw [goalSearch_pipe X Y Z hX hY hZ]
    simp [htX, htY, htZ]
  · show (goalSearch (goalNlForm X Y Z)).map
      (fun g => (String.mk (trimWs g.1), String.mk (trimWs g.2.1), String.mk (trimWs g.2.2))) = _
    rw [goalSearch_nl X Y Z hX hY hZ]
    simp [htX, htY, htZ]

/-- C7, witness: both forms of `Goal: Run a marathon | Reason: long-term
health | Timeline: 6 months` extract identical field values. -/
theorem c7_witness :
    plainField "Run a marathon".data = true ∧
    goalDeclFields "Goal: Run a marathon | Reason: long-term health | Timeline: 6 months" =
      some ("Run a marathon", "long-term health", "6 months") ∧
    goalDeclFields (String.mk ("Goal: Run a marathon".data ++ '\n' ::
      ("Reason: long-term health".data ++ '\n' :: "Timeline: 6 months".data))) =
      some ("Run a marathon", "long-term health", "6 months") := by
  refine ⟨by decide, ?_, ?_⟩
  · exact (c7_goal_forms "Run a marathon".data "long-term health".data "6 months".data
      (by decide) (by decide) (by decide)).1
  · exact (c7_goal_forms "Run a marathon".data "long-term health".data "6 months".data
      (by decide) (by decide) (by decide)).2

/-! ## C8: the strict check-in pattern -/

/-- C8: the strict check-in parser — a pure function, no LLM involved — maps
`"Sleep 7h | Mood 8 | Energy 6 | Notes: Feeling good today"` to the record
with sleep hours 7, mood `"8"`, energy `"6"` and notes
`"Feeling good today"`; and on any input the strict pattern does not match,
it returns the absence signal `none`. -/
theorem c8_strict :
    parseMorningCheckin "Sleep 7h | Mood 8 | Energy 6 | Notes: Feeling good today" =
      some { sleep_hours := some 7, current_mood := some "8",
             current_energy_level := some "6", notes := some "Feeling good today" } ∧
    ∀ s : String, strictSearch s.data = none → parseMorningCheckin s = none := by
  constructor
  · decide
  · intro s h
    unfold parseMorningCheckin
    rw [h]

/-- C8, witness: `"hello"` does not match the strict pattern and parses to
`none`. -/
theorem c8_witness :
    strictSearch ("hello" : String).data = none ∧ parseMorningCheckin "hello" = none :=
  ⟨by decide, c8_strict.2 "hello" (by decide)⟩
